import Mathlib

/-!
# Reviewer-assignment engine of pullreq-assigner

A shallow embedding of `internal/entity`, `internal/storage` and the two
engine operations of `internal/service` (`CreatePR`, `ReassignReviewer`).

* The relational store is a record of three tables (lists of rows).
* A transaction is a working copy of the store; only a successful `Commit`
  makes it the committed state, every other exit discards it (`defer tx.Rollback()`).
* Every SQL statement may fail with a driver error: each repository call takes a
  `Fault`, mapping the index of the statement inside the call to an optional error code.
* The random source (`math/rand`) is an explicit argument.
* Every service call yields its return value, the committed store afterwards and the
  trace of repository calls it issued.
-/

namespace PullreqAssigner

/-! ## internal/entity/models.go -/

/-- Row of table users: entity.User. -/
structure User where
  ID : String
  Username : String
  IsActive : Bool
  TeamName : String
deriving DecidableEq, Repr

/-- Row of table pull_requests plus the reviewers attached on reads: entity.PullRequest. -/
structure PullRequest where
  ID : String
  Name : String
  AuthorID : String
  Status : String
  CreatedAt : Nat
  MergedAt : Option Nat
  Reviewers : List User
deriving DecidableEq, Repr

/-- Row of table pr_reviewers: entity.PRReviewerPair. -/
structure PRReviewerPair where
  PRID : String
  UserID : String
deriving DecidableEq, Repr

/-! ## Errors -/

/-- Error values: the sentinels of packages storage and service, and raw driver errors. -/
inductive Err where
  | ErrNotFound
  | ErrAlreadyExists
  | ErrPRMerged
  | ErrNotAssigned
  | ErrNoCandidates
  | ErrReviewerFound
  | driver (code : Nat)
deriving DecidableEq, Repr

/-- Modelled from the spec: the table definitions (DDL) are not among the sources; section 4.2
says the Repository enforces uniqueness of pull-request identifiers, so an INSERT of an
identifier already in use is rejected by the driver (code 23505, unique violation). -/
def uniqueViolation : Err := Err.driver 23505

/-! ## internal/storage/storage.go -/

/-- The three tables read and written by the engine. -/
structure Store where
  users : List User
  pull_requests : List PullRequest
  pr_reviewers : List PRReviewerPair
deriving DecidableEq, Repr

/-- Injected driver failures of one repository call: statement index to error code. -/
abbrev Fault := Nat → Option Nat

/-- No statement fails. -/
def noFault : Fault := fun _ => none

/-- Handle of an open transaction: the working copy the statements act on. -/
structure Tx where
  pending : Store
deriving DecidableEq, Repr

namespace Storage

/-- Value of entity.User{ID: rid}. -/
def reviewerStub (rid : String) : User :=
  { ID := rid, Username := "", IsActive := false, TeamName := "" }

/-- Storage.BeginTx. -/
def BeginTx (db : Store) (fault : Fault) : Except Err Tx :=
  match fault 0 with
  | some code => .error (.driver code)
  | none => .ok { pending := db }

/-- Commit of a transaction: the working copy becomes the committed store. -/
def Commit (tx : Tx) (fault : Fault) : Except Err Store :=
  match fault 0 with
  | some code => .error (.driver code)
  | none => .ok tx.pending

/-- Storage.GetUser: first row with the id, ErrNotFound when there is none. -/
def GetUser (db : Store) (fault : Fault) (userID : String) : Except Err User :=
  match fault 0 with
  | some code => .error (.driver code)
  | none =>
    match db.users.find? (fun u => u.ID == userID) with
    | none => .error .ErrNotFound
    | some user => .ok user

/-- Storage.GetTeamMembers: all users of the team. -/
def GetTeamMembers (db : Store) (fault : Fault) (teamName : String) : Except Err (List User) :=
  match fault 0 with
  | some code => .error (.driver code)
  | none => .ok (db.users.filter (fun u => u.TeamName == teamName))

/-- Storage.SavePR: inserts the columns id, name, author_id, status, created_at. The INSERT
of an id already present is rejected with uniqueViolation (uniqueness of pull-request ids is
modelled from the spec, see uniqueViolation). -/
def SavePR (tx : Tx) (fault : Fault) (pr : PullRequest) : Except Err Tx :=
  match fault 0 with
  | some code => .error (.driver code)
  | none =>
    if tx.pending.pull_requests.any (fun row => row.ID == pr.ID) then .error uniqueViolation
    else .ok { pending := { tx.pending with
      pull_requests := tx.pending.pull_requests ++ [{ pr with MergedAt := none, Reviewers := [] }] } }

/-- Loop of Storage.SaveReviewers from insert number i on. -/
def saveReviewersFrom (fault : Fault) (prID : String) : Nat → List String → Tx → Except Err Tx
  | _, [], tx => .ok tx
  | i, uid :: rest, tx =>
    match fault i with
    | some code => .error (.driver code)
    | none => saveReviewersFrom fault prID (i + 1) rest
        { pending := { tx.pending with
            pr_reviewers := tx.pending.pr_reviewers ++ [{ PRID := prID, UserID := uid }] } }

/-- Storage.SaveReviewers: one INSERT per id, stopping at the first failure. -/
def SaveReviewers (tx : Tx) (fault : Fault) (prID : String) (reviewerIDs : List String) :
    Except Err Tx :=
  saveReviewersFrom fault prID 0 reviewerIDs tx

/-- Storage.GetPR: the row, then the ids of its reviewer links as stub users. Reviewers is
not a column (db:"-"), so the scanned row starts with no reviewers. -/
def GetPR (db : Store) (fault : Fault) (prID : String) : Except Err PullRequest :=
  match fault 0 with
  | some code => .error (.driver code)
  | none =>
    match db.pull_requests.find? (fun row => row.ID == prID) with
    | none => .error .ErrNotFound
    | some pr =>
      match fault 1 with
      | some code => .error (.driver code)
      | none =>
        let reviewerIDs := (db.pr_reviewers.filter (fun l => l.PRID == prID)).map (fun l => l.UserID)
        .ok { pr with Reviewers := reviewerIDs.map reviewerStub }

/-- Storage.RemoveReviewer: DELETE of every link (prID, userID). -/
def RemoveReviewer (tx : Tx) (fault : Fault) (prID userID : String) : Except Err Tx :=
  match fault 0 with
  | some code => .error (.driver code)
  | none => .ok { pending := { tx.pending with
      pr_reviewers := tx.pending.pr_reviewers.filter
        (fun l => !(l.PRID == prID && l.UserID == userID)) } }

/-- Storage.AddReviewer: INSERT of the link (prID, userID). -/
def AddReviewer (tx : Tx) (fault : Fault) (prID userID : String) : Except Err Tx :=
  match fault 0 with
  | some code => .error (.driver code)
  | none => .ok { pending := { tx.pending with
      pr_reviewers := tx.pending.pr_reviewers ++ [{ PRID := prID, UserID := userID }] } }

end Storage

/-! ## internal/service/service.go -/

/-- Repository calls as they appear in the call trace of a service operation. -/
inductive Event where
  | GetUser (userID : String)
  | GetTeamMembers (teamName : String)
  | GetPR (prID : String)
  | BeginTx
  | SavePR (pr : PullRequest)
  | SaveReviewers (prID : String) (reviewerIDs : List String)
  | RemoveReviewer (prID userID : String)
  | AddReviewer (prID userID : String)
  | Commit
  | Rollback
deriving DecidableEq, Repr

/-- Driver failures of one service call, per repository call site. -/
structure Faults where
  GetUser : Fault
  GetTeamMembers : Fault
  GetPR : Fault
  BeginTx : Fault
  SavePR : Fault
  SaveReviewers : Fault
  RemoveReviewer : Fault
  AddReviewer : Fault
  Commit : Fault
  GetPRAfterCommit : Fault

/-- The run in which no repository call fails. -/
def noFaults : Faults :=
  { GetUser := noFault, GetTeamMembers := noFault, GetPR := noFault, BeginTx := noFault,
    SavePR := noFault, SaveReviewers := noFault, RemoveReviewer := noFault,
    AddReviewer := noFault, Commit := noFault, GetPRAfterCommit := noFault }

/-- Outcome of the per-call random source: the rearrangement done by r.Shuffle and the raw
value behind r.Intn. -/
structure Rng where
  Shuffle : List User → List User
  pick : Nat

/-- Value of r.Intn(n) for 0 < n: a number below n. -/
def Rng.Intn (r : Rng) (n : Nat) : Nat := r.pick % n

/-- Contract of rand.Shuffle: the result is a rearrangement of its input. -/
def Rng.ShuffleSound (r : Rng) : Prop := ∀ l : List User, (r.Shuffle l).Perm l

/-- What a service call leaves behind: return value, committed store, repository calls. -/
structure Outcome (ρ : Type) where
  ret : ρ
  db : Store
  trace : List Event

/-- Return triple of Service.ReassignReviewer. -/
structure Reassigned where
  pr : Option PullRequest
  replacedBy : String
  err : Option Err
deriving DecidableEq, Repr

namespace Service

/-- Candidate filter of CreatePR: active and not the author. -/
def createCandidates (teamMembers : List User) (author : User) : List User :=
  teamMembers.filter (fun u => u.IsActive && u.ID != author.ID)

/-- The ids CreatePR takes from the shuffled candidates: the first two, or all when fewer. -/
def chooseReviewers (candidates : List User) : List String :=
  let limit := if candidates.length < 2 then candidates.length else 2
  (candidates.take limit).map (fun u => u.ID)

/-- The record CreatePR builds: status OPEN, created now, Reviewers nil. -/
def newPullRequest (now : Nat) (reqID name authorID : String) : PullRequest :=
  { ID := reqID, Name := name, AuthorID := authorID, Status := "OPEN",
    CreatedAt := now, MergedAt := none, Reviewers := [] }

/-- Service.CreatePR. -/
def CreatePR (repo : Store) (f : Faults) (rng : Rng) (now : Nat)
    (reqID name authorID : String) : Outcome (Except Err PullRequest) :=
  match Storage.GetUser repo f.GetUser authorID with
  | .error err => ⟨.error err, repo, [.GetUser authorID]⟩
  | .ok author =>
    match Storage.GetTeamMembers repo f.GetTeamMembers author.TeamName with
    | .error err => ⟨.error err, repo, [.GetUser authorID, .GetTeamMembers author.TeamName]⟩
    | .ok teamMembers =>
      let candidates := rng.Shuffle (createCandidates teamMembers author)
      let chosenReviewers := chooseReviewers candidates
      let pr : PullRequest := newPullRequest now reqID name authorID
      let reads : List Event := [.GetUser authorID, .GetTeamMembers author.TeamName]
      match Storage.BeginTx repo f.BeginTx with
      | .error err => ⟨.error err, repo, reads ++ [.BeginTx]⟩
      | .ok tx =>
        match Storage.SavePR tx f.SavePR pr with
        | .error err => ⟨.error err, repo, reads ++ [.BeginTx, .SavePR pr, .Rollback]⟩
        | .ok tx1 =>
          let saved : Except Err Tx × List Event :=
            if chosenReviewers.length > 0 then
              (Storage.SaveReviewers tx1 f.SaveReviewers pr.ID chosenReviewers,
                [.SaveReviewers pr.ID chosenReviewers])
            else (.ok tx1, [])
          match saved.1 with
          | .error err =>
            ⟨.error err, repo, reads ++ [.BeginTx, .SavePR pr] ++ saved.2 ++ [.Rollback]⟩
          | .ok tx2 =>
            match Storage.Commit tx2 f.Commit with
            | .error err =>
              ⟨.error err, repo, reads ++ [.BeginTx, .SavePR pr] ++ saved.2 ++ [.Commit, .Rollback]⟩
            | .ok db =>
              ⟨.ok pr, db, reads ++ [.BeginTx, .SavePR pr] ++ saved.2 ++ [.Commit, .Rollback]⟩

/-- Keys of busyMap: the ids of the current reviewers. -/
def busyIDs (pr : PullRequest) : List String := pr.Reviewers.map (fun u => u.ID)

/-- Value of isAssigned after the loop over pr.Reviewers. -/
def isAssigned (pr : PullRequest) (oldUserID : String) : Bool :=
  pr.Reviewers.any (fun u => u.ID == oldUserID)

/-- Candidate filter of ReassignReviewer: active, not the author, not in busyMap. -/
def reassignCandidates (teamMembers : List User) (pr : PullRequest) : List User :=
  teamMembers.filter (fun u =>
    !(!u.IsActive) && !(u.ID == pr.AuthorID) && !((busyIDs pr).contains u.ID))

/-- Service.ReassignReviewer. -/
def ReassignReviewer (repo : Store) (f : Faults) (rng : Rng)
    (prID oldUserID : String) : Outcome Reassigned :=
  match Storage.GetPR repo f.GetPR prID with
  | .error err => ⟨⟨none, "", some err⟩, repo, [.GetPR prID]⟩
  | .ok pr =>
    if pr.Status == "MERGED" then ⟨⟨none, "", some .ErrPRMerged⟩, repo, [.GetPR prID]⟩
    else if !(isAssigned pr oldUserID) then
      ⟨⟨none, "", some .ErrNotAssigned⟩, repo, [.GetPR prID]⟩
    else
      match Storage.GetUser repo f.GetUser oldUserID with
      | .error err => ⟨⟨none, "", some err⟩, repo, [.GetPR prID, .GetUser oldUserID]⟩
      | .ok oldUser =>
        let reads : List Event :=
          [.GetPR prID, .GetUser oldUserID, .GetTeamMembers oldUser.TeamName]
        match Storage.GetTeamMembers repo f.GetTeamMembers oldUser.TeamName with
        | .error err => ⟨⟨none, "", some err⟩, repo, reads⟩
        | .ok teamMembers =>
          let candidates := reassignCandidates teamMembers pr
          if h : candidates.length = 0 then ⟨⟨none, "", some .ErrNoCandidates⟩, repo, reads⟩
          else
            let newReviewer := candidates.get
              ⟨rng.Intn candidates.length, Nat.mod_lt _ (Nat.pos_of_ne_zero h)⟩
            match Storage.BeginTx repo f.BeginTx with
            | .error err => ⟨⟨none, "", some err⟩, repo, reads ++ [.BeginTx]⟩
            | .ok tx =>
              match Storage.RemoveReviewer tx f.RemoveReviewer prID oldUserID with
              | .error err =>
                ⟨⟨none, "", some err⟩, repo,
                  reads ++ [.BeginTx, .RemoveReviewer prID oldUserID, .Rollback]⟩
              | .ok tx1 =>
                match Storage.AddReviewer tx1 f.AddReviewer prID newReviewer.ID with
                | .error err =>
                  ⟨⟨none, "", some err⟩, repo,
                    reads ++ [.BeginTx, .RemoveReviewer prID oldUserID,
                      .AddReviewer prID newReviewer.ID, .Rollback]⟩
                | .ok tx2 =>
                  let writes : List Event :=
                    [.BeginTx, .RemoveReviewer prID oldUserID,
                      .AddReviewer prID newReviewer.ID, .Commit]
                  match Storage.Commit tx2 f.Commit with
                  | .error err => ⟨⟨none, "", some err⟩, repo, reads ++ writes ++ [.Rollback]⟩
                  | .ok db =>
                    match Storage.GetPR db f.GetPRAfterCommit prID with
                    | .error err =>
                      ⟨⟨none, newReviewer.ID, some err⟩, db,
                        reads ++ writes ++ [.GetPR prID, .Rollback]⟩
                    | .ok updatedPR =>
                      ⟨⟨some updatedPR, newReviewer.ID, none⟩, db,
                        reads ++ writes ++ [.GetPR prID, .Rollback]⟩

end Service

/-! ## State predicates used by the properties -/

/-- Ids of the reviewer links of a pull request in a store, in table order. -/
def reviewerIDs (db : Store) (prID : String) : List String :=
  (db.pr_reviewers.filter (fun l => l.PRID == prID)).map (fun l => l.UserID)

/-- Modelled from the spec: the integrity constraints of the data model (section 3) that the
table definitions, absent from the sources, carry: pull-request identifiers are unique and
every reviewer link relates an existing pull request. -/
def Store.Consistent (db : Store) : Prop :=
  (db.pull_requests.map (fun row => row.ID)).Nodup ∧
  ∀ l ∈ db.pr_reviewers, ∃ row ∈ db.pull_requests, row.ID = l.PRID

/-- No pull request has its author among its reviewer links (I1, P1). -/
def NoSelfReview (db : Store) : Prop :=
  ∀ row ∈ db.pull_requests, row.AuthorID ∉ reviewerIDs db row.ID

/-- Reviewer links of every pull request are pairwise distinct (I3, P2). -/
def NoDuplicateReviewers (db : Store) : Prop :=
  ∀ prID : String, (reviewerIDs db prID).Nodup

/-- No team roster lists the same user id twice. -/
def RostersDistinct (db : Store) : Prop :=
  ∀ teamName : String,
    ((db.users.filter (fun u => u.TeamName == teamName)).map (fun u => u.ID)).Nodup

/-- Repository calls that write or open a transaction. -/
def Event.isWrite : Event → Bool
  | .BeginTx => true
  | .SavePR _ => true
  | .SaveReviewers _ _ => true
  | .RemoveReviewer _ _ => true
  | .AddReviewer _ _ => true
  | .Commit => true
  | _ => false

/-- Repository reads: GetUser, GetTeamMembers and GetPR. -/
def Event.isRead : Event → Bool
  | .GetUser _ => true
  | .GetTeamMembers _ => true
  | .GetPR _ => true
  | _ => false

/-- Reads inside the transaction, as a property of a call trace: every read issued before
the Commit has the BeginTx of the transaction before it. -/
def ReadsInsideTx (trace : List Event) : Prop :=
  ∀ (before : List Event) (e : Event) (after : List Event),
    trace = before ++ e :: after → e.isRead = true → Event.Commit ∉ before →
    Event.BeginTx ∈ before

/-! ## Concrete stores of the tests and scenarios -/

/-- Member u1 of the team of TestHappyPath. -/
def alice : User := { ID := "u1", Username := "Alice", IsActive := true, TeamName := "gophers" }

/-- Member u2 of the team of TestHappyPath. -/
def bob : User := { ID := "u2", Username := "Bob", IsActive := true, TeamName := "gophers" }

/-- Member u3 of the team of TestHappyPath. -/
def charlie : User :=
  { ID := "u3", Username := "Charlie", IsActive := true, TeamName := "gophers" }

/-- Member u4, a fourth active user of the team. -/
def dave : User := { ID := "u4", Username := "Dave", IsActive := true, TeamName := "gophers" }

/-- Store after step 1 of TestHappyPath: team gophers with u1, u2, u3, no pull request. -/
def gophers : Store := { users := [alice, bob, charlie], pull_requests := [], pr_reviewers := [] }

/-- The pull request pr-1 of author u1 as stored, with the given status. -/
def storedPR (status : String) : PullRequest :=
  { ID := "pr-1", Name := "Fix", AuthorID := "u1", Status := status,
    CreatedAt := 0, MergedAt := none, Reviewers := [] }

/-- The pull request pr-1 as read back by GetPR: reviewers u2 and u3. -/
def readPR (status : String) : PullRequest :=
  { storedPR status with Reviewers := [Storage.reviewerStub "u2", Storage.reviewerStub "u3"] }

/-- Scenario C: team u1, u2, u3; pr-1 of author u1 is OPEN with reviewers u2 and u3. -/
def openStore : Store :=
  { users := [alice, bob, charlie], pull_requests := [storedPR "OPEN"],
    pr_reviewers := [{ PRID := "pr-1", UserID := "u2" }, { PRID := "pr-1", UserID := "u3" }] }

/-- Scenario D: as openStore, but pr-1 is MERGED. -/
def mergedStore : Store :=
  { users := [alice, bob, charlie], pull_requests := [storedPR "MERGED"],
    pr_reviewers := [{ PRID := "pr-1", UserID := "u2" }, { PRID := "pr-1", UserID := "u3" }] }

/-- As openStore, with a fourth active team member u4 who can replace a reviewer. -/
def openStore4 : Store :=
  { users := [alice, bob, charlie, dave], pull_requests := [storedPR "OPEN"],
    pr_reviewers := [{ PRID := "pr-1", UserID := "u2" }, { PRID := "pr-1", UserID := "u3" }] }

/-- Scenario B: team with the two active users u1 and u2, no pull request. -/
def pairStore : Store := { users := [alice, bob], pull_requests := [], pr_reviewers := [] }

/-- Store with the single user u1 and no pull request: the author has no team mate. -/
def soloStore : Store := { users := [alice], pull_requests := [], pr_reviewers := [] }

/-- Run in which the second INSERT of SaveReviewers fails with driver code 1. -/
def secondInsertFails : Faults :=
  { noFaults with SaveReviewers := fun i => if i = 1 then some 1 else none }

/-- Run in which Commit fails with driver code 2. -/
def commitFails : Faults := { noFaults with Commit := fun _ => some 2 }

/-- Run in which AddReviewer fails with driver code 3. -/
def addReviewerFails : Faults := { noFaults with AddReviewer := fun _ => some 3 }

/-- Run in which the GetPR that re-reads the pull request after Commit fails with driver
code 4. -/
def rereadFails : Faults := { noFaults with GetPRAfterCommit := fun _ => some 4 }

/-- Random source that leaves the candidates in roster order and draws 0. -/
def idRng : Rng := { Shuffle := fun l => l, pick := 0 }

/-- Random source that reverses the candidates and draws 0. -/
def revRng : Rng := { Shuffle := fun l => l.reverse, pick := 0 }

/-! ## Facts about the repository calls -/

theorem Storage.GetUser_ok {db : Store} {fl : Fault} {userID : String} {u : User}
    (h : Storage.GetUser db fl userID = .ok u) : u ∈ db.users ∧ u.ID = userID := by
  unfold Storage.GetUser at h
  split at h
  · cases h
  · split at h
    · cases h
    · rename_i user hfind
      cases h
      exact ⟨List.mem_of_find?_eq_some hfind, by simpa using List.find?_some hfind⟩

theorem Storage.GetTeamMembers_ok {db : Store} {fl : Fault} {teamName : String}
    {roster : List User} (h : Storage.GetTeamMembers db fl teamName = .ok roster) :
    roster = db.users.filter (fun u => u.TeamName == teamName) := by
  unfold Storage.GetTeamMembers at h
  split at h
  · cases h
  · cases h; rfl

theorem Storage.BeginTx_ok {db : Store} {fl : Fault} {tx : Tx}
    (h : Storage.BeginTx db fl = .ok tx) : tx = { pending := db } := by
  unfold Storage.BeginTx at h
  split at h
  · cases h
  · cases h; rfl

theorem Storage.Commit_ok {tx : Tx} {fl : Fault} {db : Store}
    (h : Storage.Commit tx fl = .ok db) : db = tx.pending := by
  unfold Storage.Commit at h
  split at h
  · cases h
  · cases h; rfl

theorem Storage.SavePR_ok {tx tx1 : Tx} {fl : Fault} {pr : PullRequest}
    (h : Storage.SavePR tx fl pr = .ok tx1) :
    (∀ row ∈ tx.pending.pull_requests, row.ID ≠ pr.ID) ∧
    tx1.pending = { tx.pending with pull_requests :=
      tx.pending.pull_requests ++ [{ pr with MergedAt := none, Reviewers := [] }] } := by
  unfold Storage.SavePR at h
  split at h
  · cases h
  · split at h
    · cases h
    · rename_i hany
      cases h
      refine ⟨?_, rfl⟩
      intro row hrow heq
      apply hany
      simp only [List.any_eq_true]
      exact ⟨row, hrow, by simp [heq]⟩

theorem Storage.saveReviewersFrom_ok (fl : Fault) (prID : String) :
    ∀ (ids : List String) (i : Nat) (tx tx1 : Tx),
      Storage.saveReviewersFrom fl prID i ids tx = .ok tx1 →
      tx1.pending = { tx.pending with pr_reviewers :=
        tx.pending.pr_reviewers ++ ids.map (fun uid => { PRID := prID, UserID := uid }) } := by
  intro ids
  induction ids with
  | nil =>
    intro i tx tx1 h
    simp only [Storage.saveReviewersFrom] at h
    cases h
    simp
  | cons uid rest ih =>
    intro i tx tx1 h
    simp only [Storage.saveReviewersFrom] at h
    split at h
    · cases h
    · have := ih _ _ _ h
      rw [this]
      simp

theorem Storage.SaveReviewers_ok {tx tx1 : Tx} {fl : Fault} {prID : String} {ids : List String}
    (h : Storage.SaveReviewers tx fl prID ids = .ok tx1) :
    tx1.pending = { tx.pending with pr_reviewers :=
      tx.pending.pr_reviewers ++ ids.map (fun uid => { PRID := prID, UserID := uid }) } :=
  Storage.saveReviewersFrom_ok fl prID ids 0 tx tx1 h

theorem Storage.GetPR_ok {db : Store} {fl : Fault} {prID : String} {pr : PullRequest}
    (h : Storage.GetPR db fl prID = .ok pr) :
    ∃ row, db.pull_requests.find? (fun r => r.ID == prID) = some row ∧
      pr = { row with Reviewers := (reviewerIDs db prID).map Storage.reviewerStub } := by
  unfold Storage.GetPR at h
  split at h
  · cases h
  · split at h
    · cases h
    · split at h
      · cases h
      · rename_i row hfind _ _
        cases h
        exact ⟨row, hfind, rfl⟩

theorem Storage.RemoveReviewer_ok {tx tx1 : Tx} {fl : Fault} {prID userID : String}
    (h : Storage.RemoveReviewer tx fl prID userID = .ok tx1) :
    tx1.pending = { tx.pending with pr_reviewers :=
      tx.pending.pr_reviewers.filter (fun l => !(l.PRID == prID && l.UserID == userID)) } := by
  unfold Storage.RemoveReviewer at h
  split at h
  · cases h
  · cases h; rfl

theorem Storage.AddReviewer_ok {tx tx1 : Tx} {fl : Fault} {prID userID : String}
    (h : Storage.AddReviewer tx fl prID userID = .ok tx1) :
    tx1.pending = { tx.pending with pr_reviewers :=
      tx.pending.pr_reviewers ++ [{ PRID := prID, UserID := userID }] } := by
  unfold Storage.AddReviewer at h
  split at h
  · cases h
  · cases h; rfl


/-! ## Case analysis of the service operations -/

theorem Service.CreatePR_cases (repo : Store) (f : Faults) (rng : Rng) (now : Nat)
    (reqID name authorID : String) :
    ((Service.CreatePR repo f rng now reqID name authorID).db = repo ∧
      ∃ e, (Service.CreatePR repo f rng now reqID name authorID).ret = .error e) ∨
    ∃ author roster,
      Storage.GetUser repo f.GetUser authorID = .ok author ∧
      Storage.GetTeamMembers repo f.GetTeamMembers author.TeamName = .ok roster ∧
      (∀ row ∈ repo.pull_requests, row.ID ≠ reqID) ∧
      (Service.CreatePR repo f rng now reqID name authorID).ret =
        .ok (Service.newPullRequest now reqID name authorID) ∧
      (Service.CreatePR repo f rng now reqID name authorID).db =
        { repo with
          pull_requests := repo.pull_requests ++ [Service.newPullRequest now reqID name authorID],
          pr_reviewers := repo.pr_reviewers ++
            (Service.chooseReviewers (rng.Shuffle (Service.createCandidates roster author))).map
              (fun uid => { PRID := reqID, UserID := uid }) } := by
  unfold Service.CreatePR
  split
  · exact Or.inl ⟨rfl, _, rfl⟩
  · rename_i author hu
    split
    · exact Or.inl ⟨rfl, _, rfl⟩
    · rename_i roster hm
      dsimp only
      split
      · exact Or.inl ⟨rfl, _, rfl⟩
      · rename_i tx hb
        have htx := Storage.BeginTx_ok hb
        subst htx
        split
        · exact Or.inl ⟨rfl, _, rfl⟩
        · rename_i tx1 hs
          obtain ⟨hfresh, h1⟩ := Storage.SavePR_ok hs
          split
          · exact Or.inl ⟨rfl, _, rfl⟩
          · rename_i tx2 hsv
            split
            · exact Or.inl ⟨rfl, _, rfl⟩
            · rename_i db hc
              have hdb := Storage.Commit_ok hc
              refine Or.inr ⟨author, roster, hu, hm, hfresh, rfl, ?_⟩
              subst hdb
              dsimp only
              split at hsv
              · have h2 := Storage.SaveReviewers_ok hsv
                rw [h2, h1]
                rfl
              · rename_i hlen
                cases hsv
                rw [h1]
                have : Service.chooseReviewers (rng.Shuffle (Service.createCandidates roster author)) = [] := by
                  apply List.eq_nil_of_length_eq_zero
                  omega
                rw [this]
                simp [Service.newPullRequest]

theorem Service.ReassignReviewer_cases (repo : Store) (f : Faults) (rng : Rng)
    (prID oldUserID : String) :
    ((Service.ReassignReviewer repo f rng prID oldUserID).db = repo ∧
      ∃ e, (Service.ReassignReviewer repo f rng prID oldUserID).ret = ⟨none, "", some e⟩) ∨
    ∃ pr oldUser roster newReviewer,
      Storage.GetPR repo f.GetPR prID = .ok pr ∧
      pr.Status ≠ "MERGED" ∧
      Service.isAssigned pr oldUserID = true ∧
      Storage.GetUser repo f.GetUser oldUserID = .ok oldUser ∧
      Storage.GetTeamMembers repo f.GetTeamMembers oldUser.TeamName = .ok roster ∧
      newReviewer ∈ Service.reassignCandidates roster pr ∧
      (Service.ReassignReviewer repo f rng prID oldUserID).db =
        { repo with pr_reviewers :=
            repo.pr_reviewers.filter (fun l => !(l.PRID == prID && l.UserID == oldUserID)) ++
              [{ PRID := prID, UserID := newReviewer.ID }] } ∧
      (Service.ReassignReviewer repo f rng prID oldUserID).ret.replacedBy = newReviewer.ID ∧
      ((∃ e, Storage.GetPR (Service.ReassignReviewer repo f rng prID oldUserID).db
            f.GetPRAfterCommit prID = .error e ∧
          (Service.ReassignReviewer repo f rng prID oldUserID).ret =
            ⟨none, newReviewer.ID, some e⟩) ∨
       (∃ updatedPR, Storage.GetPR (Service.ReassignReviewer repo f rng prID oldUserID).db
            f.GetPRAfterCommit prID = .ok updatedPR ∧
          (Service.ReassignReviewer repo f rng prID oldUserID).ret =
            ⟨some updatedPR, newReviewer.ID, none⟩)) := by
  unfold Service.ReassignReviewer
  split
  · exact Or.inl ⟨rfl, _, rfl⟩
  · rename_i pr hpr
    split
    · exact Or.inl ⟨rfl, _, rfl⟩
    · rename_i hst
      split
      · exact Or.inl ⟨rfl, _, rfl⟩
      · rename_i has
        split
        · exact Or.inl ⟨rfl, _, rfl⟩
        · rename_i oldUser hu
          dsimp only
          split
          · exact Or.inl ⟨rfl, _, rfl⟩
          · rename_i roster hm
            split
            · exact Or.inl ⟨rfl, _, rfl⟩
            · rename_i hne
              split
              · exact Or.inl ⟨rfl, _, rfl⟩
              · rename_i tx hb
                have htx := Storage.BeginTx_ok hb
                subst htx
                split
                · exact Or.inl ⟨rfl, _, rfl⟩
                · rename_i tx1 hr
                  have h1 := Storage.RemoveReviewer_ok hr
                  split
                  · exact Or.inl ⟨rfl, _, rfl⟩
                  · rename_i tx2 ha
                    have h2 := Storage.AddReviewer_ok ha
                    split
                    · exact Or.inl ⟨rfl, _, rfl⟩
                    · rename_i db hc
                      have hdb := Storage.Commit_ok hc
                      have hdb2 : db = { repo with
                        pr_reviewers :=
                          List.filter (fun l => !(l.PRID == prID && l.UserID == oldUserID))
                            repo.pr_reviewers ++
                          [{ PRID := prID, UserID := ((Service.reassignCandidates roster pr).get
                            ⟨rng.Intn (Service.reassignCandidates roster pr).length,
                              Nat.mod_lt _ (Nat.pos_of_ne_zero hne)⟩).ID }] } := by
                        rw [hdb, h2, h1]
                      refine Or.inr ⟨pr, oldUser, roster,
                        (Service.reassignCandidates roster pr).get
                          ⟨rng.Intn (Service.reassignCandidates roster pr).length,
                            Nat.mod_lt _ (Nat.pos_of_ne_zero hne)⟩,
                        hpr, ?_, ?_, hu, hm, List.get_mem _ _ _, ?_⟩
                      · simpa using hst
                      · simpa using has
                      · cases hg : Storage.GetPR db f.GetPRAfterCommit prID with
                        | error e => exact ⟨hdb2, rfl, Or.inl ⟨e, hg, rfl⟩⟩
                        | ok updatedPR => exact ⟨hdb2, rfl, Or.inr ⟨updatedPR, hg, rfl⟩⟩

theorem Service.CreatePR_trace (repo : Store) (f : Faults) (rng : Rng) (now : Nat)
    (reqID name authorID : String) :
    (∀ p ids, Event.SaveReviewers p ids ∉
        (Service.CreatePR repo f rng now reqID name authorID).trace) ∨
    ∃ author roster tx1 rest,
      Storage.GetUser repo f.GetUser authorID = .ok author ∧
      Storage.GetTeamMembers repo f.GetTeamMembers author.TeamName = .ok roster ∧
      Storage.SavePR { pending := repo } f.SavePR
        (Service.newPullRequest now reqID name authorID) = .ok tx1 ∧
      (Service.CreatePR repo f rng now reqID name authorID).trace =
        [Event.GetUser authorID, Event.GetTeamMembers author.TeamName, Event.BeginTx,
          Event.SavePR (Service.newPullRequest now reqID name authorID),
          Event.SaveReviewers reqID
            (Service.chooseReviewers (rng.Shuffle (Service.createCandidates roster author)))]
          ++ rest ∧
      (∀ p ids, Event.SaveReviewers p ids ∉ rest) := by
  unfold Service.CreatePR
  split
  · left; intro p ids; simp
  · rename_i author hu
    split
    · left; intro p ids; simp
    · rename_i roster hm
      dsimp only
      split
      · left; intro p ids; simp
      · rename_i tx hb
        have htx := Storage.BeginTx_ok hb
        subst htx
        split
        · left; intro p ids; simp
        · rename_i tx1 hs
          by_cases hlen : (Service.chooseReviewers
              (rng.Shuffle (Service.createCandidates roster author))).length > 0
          · simp only [hlen, if_true]
            right
            split
            · exact ⟨author, roster, tx1, [Event.Rollback], hu, hm, hs, rfl, by simp⟩
            · split
              · exact ⟨author, roster, tx1, [Event.Commit, Event.Rollback], hu, hm, hs, rfl,
                  by simp⟩
              · exact ⟨author, roster, tx1, [Event.Commit, Event.Rollback], hu, hm, hs, rfl,
                  by simp⟩
          · simp only [hlen, if_false]
            left
            split
            · intro p ids; simp
            · intro p ids; simp

theorem Service.ReassignReviewer_trace (repo : Store) (f : Faults) (rng : Rng)
    (prID oldUserID : String) :
    (∀ e ∈ (Service.ReassignReviewer repo f rng prID oldUserID).trace, e.isWrite = false) ∨
    ∃ pr oldUser roster newReviewer,
      Storage.GetPR repo f.GetPR prID = .ok pr ∧
      pr.Status ≠ "MERGED" ∧
      Service.isAssigned pr oldUserID = true ∧
      Storage.GetUser repo f.GetUser oldUserID = .ok oldUser ∧
      Storage.GetTeamMembers repo f.GetTeamMembers oldUser.TeamName = .ok roster ∧
      newReviewer ∈ Service.reassignCandidates roster pr ∧
      ∀ p uid, Event.AddReviewer p uid ∈
          (Service.ReassignReviewer repo f rng prID oldUserID).trace →
        p = prID ∧ uid = newReviewer.ID := by
  unfold Service.ReassignReviewer
  split
  · left; intro e he; simp at he; subst he; rfl
  · rename_i pr hpr
    split
    · left; intro e he; simp at he; subst he; rfl
    · rename_i hst
      split
      · left; intro e he; simp at he; subst he; rfl
      · rename_i has
        split
        · left; intro e he; simp at he; rcases he with rfl | rfl <;> rfl
        · rename_i oldUser hu
          dsimp only
          split
          · left; intro e he; simp at he; rcases he with rfl | rfl | rfl <;> rfl
          · rename_i roster hm
            split
            · left; intro e he; simp at he; rcases he with rfl | rfl | rfl <;> rfl
            · rename_i hne
              right
              refine ⟨pr, oldUser, roster,
                (Service.reassignCandidates roster pr).get
                  ⟨rng.Intn (Service.reassignCandidates roster pr).length,
                    Nat.mod_lt _ (Nat.pos_of_ne_zero hne)⟩,
                hpr, by simpa using hst, by simpa using has, hu, hm, List.get_mem _ _ _, ?_⟩
              intro p uid
              split
              · simp
              · split
                · simp
                · split
                  · simp
                  · split
                    · simp
                    · split
                      · simp
                      · simp

/-! ## Reviewer ids after the writes -/

theorem reviewerIDs_append (users : List User) (prs : List PullRequest)
    (links more : List PRReviewerPair) (p : String) :
    reviewerIDs { users := users, pull_requests := prs, pr_reviewers := links ++ more } p =
      reviewerIDs { users := users, pull_requests := prs, pr_reviewers := links } p ++
        (more.filter (fun l => l.PRID == p)).map (fun l => l.UserID) := by
  simp [reviewerIDs, List.filter_append]

theorem filter_new_links (reqID p : String) (ids : List String) :
    ((ids.map (fun uid => ({ PRID := reqID, UserID := uid } : PRReviewerPair))).filter
      (fun l => l.PRID == p)).map (fun l => l.UserID) = if reqID = p then ids else [] := by
  by_cases h : reqID = p
  · subst h
    simp [List.filter_map, Function.comp_def]
  · simp [List.filter_map, Function.comp_def, h]

theorem reviewerIDs_created (repo : Store) (pr : PullRequest) (reqID : String)
    (ids : List String) (p : String) :
    reviewerIDs { repo with
        pull_requests := repo.pull_requests ++ [pr],
        pr_reviewers := repo.pr_reviewers ++
          ids.map (fun uid => { PRID := reqID, UserID := uid }) } p =
      reviewerIDs repo p ++ (if reqID = p then ids else []) := by
  rw [reviewerIDs_append, filter_new_links]
  rfl

theorem filter_removed_links (links : List PRReviewerPair) (prID old p : String) :
    ((links.filter (fun l => !(l.PRID == prID && l.UserID == old))).filter
        (fun l => l.PRID == p)).map (fun l => l.UserID) =
      if p = prID then
        ((links.filter (fun l => l.PRID == p)).map (fun l => l.UserID)).filter (fun x => x != old)
      else (links.filter (fun l => l.PRID == p)).map (fun l => l.UserID) := by
  rw [List.filter_filter]
  by_cases hp : p = prID
  · subst hp
    rw [if_pos rfl, List.filter_map, List.filter_filter]
    congr 1
    apply List.filter_congr
    intro l _
    simp only [bne, Function.comp]
    cases (l.PRID == p) <;> cases (l.UserID == old) <;> rfl
  · rw [if_neg hp]
    congr 1
    apply List.filter_congr
    intro l _
    by_cases h1 : l.PRID = p
    · have h3 : ¬ l.PRID = prID := fun h => hp (h1.symm.trans h)
      simp [h1, h3, hp]
    · simp [h1]

theorem reviewerIDs_swapped (repo : Store) (prID old new p : String) :
    reviewerIDs { repo with pr_reviewers :=
        repo.pr_reviewers.filter (fun l => !(l.PRID == prID && l.UserID == old)) ++
          [{ PRID := prID, UserID := new }] } p =
      if p = prID then (reviewerIDs repo prID).filter (fun x => x != old) ++ [new]
      else reviewerIDs repo p := by
  rw [reviewerIDs_append]
  have h := filter_removed_links repo.pr_reviewers prID old p
  by_cases hp : p = prID
  · subst hp
    simp only [if_true] at h ⊢
    simp only [reviewerIDs]
    rw [h]
    simp
  · simp only [if_neg hp] at h ⊢
    simp only [reviewerIDs]
    rw [h]
    have : ¬ prID = p := fun h => hp h.symm
    simp [this]

theorem Storage.GetPR_busyIDs {db : Store} {fl : Fault} {prID : String} {pr : PullRequest}
    (h : Storage.GetPR db fl prID = .ok pr) : Service.busyIDs pr = reviewerIDs db prID := by
  obtain ⟨row, _, hrow⟩ := Storage.GetPR_ok h
  subst hrow
  simp [Service.busyIDs, Storage.reviewerStub, Function.comp_def]

theorem length_filter_ne_of_nodup (l : List String) (a : String) (hnd : l.Nodup) (ha : a ∈ l) :
    (l.filter (fun x => x != a)).length + 1 = l.length := by
  rw [← hnd.erase_eq_filter a, List.length_erase_of_mem ha]
  have : 0 < l.length := List.length_pos_of_mem ha
  omega

/-! ## Outcomes of the validation steps of ReassignReviewer -/

theorem Service.ReassignReviewer_getPR_error {repo : Store} {f : Faults} {rng : Rng}
    {prID oldUserID : String} {e : Err} (hpr : Storage.GetPR repo f.GetPR prID = .error e) :
    Service.ReassignReviewer repo f rng prID oldUserID =
      ⟨⟨none, "", some e⟩, repo, [Event.GetPR prID]⟩ := by
  unfold Service.ReassignReviewer
  rw [hpr]

theorem Service.ReassignReviewer_merged {repo : Store} {f : Faults} {rng : Rng}
    {prID oldUserID : String} {pr : PullRequest}
    (hpr : Storage.GetPR repo f.GetPR prID = .ok pr) (hm : pr.Status = "MERGED") :
    Service.ReassignReviewer repo f rng prID oldUserID =
      ⟨⟨none, "", some .ErrPRMerged⟩, repo, [Event.GetPR prID]⟩ := by
  unfold Service.ReassignReviewer
  rw [hpr]
  simp [hm]

theorem Service.isAssigned_iff (pr : PullRequest) (oldUserID : String) :
    Service.isAssigned pr oldUserID = true ↔ oldUserID ∈ Service.busyIDs pr := by
  simp only [Service.isAssigned, Service.busyIDs, List.any_eq_true, List.mem_map]
  constructor
  · rintro ⟨u, hu, h⟩
    exact ⟨u, hu, by simpa using h⟩
  · rintro ⟨u, hu, h⟩
    exact ⟨u, hu, by simpa using h⟩

theorem Service.ReassignReviewer_notAssigned {repo : Store} {f : Faults} {rng : Rng}
    {prID oldUserID : String} {pr : PullRequest}
    (hpr : Storage.GetPR repo f.GetPR prID = .ok pr) (hm : pr.Status ≠ "MERGED")
    (hna : oldUserID ∉ Service.busyIDs pr) :
    Service.ReassignReviewer repo f rng prID oldUserID =
      ⟨⟨none, "", some .ErrNotAssigned⟩, repo, [Event.GetPR prID]⟩ := by
  have h : Service.isAssigned pr oldUserID = false := by
    rw [← Bool.not_eq_true, Service.isAssigned_iff]
    exact hna
  unfold Service.ReassignReviewer
  rw [hpr]
  simp [hm, h]

theorem Service.ReassignReviewer_noCandidates {repo : Store} {f : Faults} {rng : Rng}
    {prID oldUserID : String} {pr : PullRequest} {oldUser : User} {roster : List User}
    (hpr : Storage.GetPR repo f.GetPR prID = .ok pr) (hm : pr.Status ≠ "MERGED")
    (ha : oldUserID ∈ Service.busyIDs pr)
    (hu : Storage.GetUser repo f.GetUser oldUserID = .ok oldUser)
    (ht : Storage.GetTeamMembers repo f.GetTeamMembers oldUser.TeamName = .ok roster)
    (hc : Service.reassignCandidates roster pr = []) :
    Service.ReassignReviewer repo f rng prID oldUserID =
      ⟨⟨none, "", some .ErrNoCandidates⟩, repo,
        [Event.GetPR prID, Event.GetUser oldUserID, Event.GetTeamMembers oldUser.TeamName]⟩ := by
  have h : Service.isAssigned pr oldUserID = true := (Service.isAssigned_iff _ _).2 ha
  unfold Service.ReassignReviewer
  rw [hpr]
  simp [hm, h, hu, ht, hc]


theorem Service.mem_reassignCandidates (roster : List User) (pr : PullRequest) (u : User) :
    u ∈ Service.reassignCandidates roster pr ↔
      u ∈ roster ∧ u.IsActive = true ∧ u.ID ≠ pr.AuthorID ∧ u.ID ∉ Service.busyIDs pr := by
  simp [Service.reassignCandidates, List.mem_filter, and_assoc]


theorem Storage.GetPR_error {db : Store} {fl : Fault} {prID : String} {e : Err}
    (h : Storage.GetPR db fl prID = .error e) : e = .ErrNotFound ∨ ∃ c, e = .driver c := by
  unfold Storage.GetPR at h
  split at h
  · cases h; exact Or.inr ⟨_, rfl⟩
  · split at h
    · cases h; exact Or.inl rfl
    · split at h
      · cases h; exact Or.inr ⟨_, rfl⟩
      · cases h

theorem Storage.GetPR_absent {db : Store} {fl : Fault} {prID : String} (h0 : fl 0 = none)
    (h : ∀ row ∈ db.pull_requests, row.ID ≠ prID) :
    Storage.GetPR db fl prID = .error .ErrNotFound := by
  have hf : db.pull_requests.find? (fun row => row.ID == prID) = none := by
    rw [List.find?_eq_none]
    intro row hrow
    simpa using h row hrow
  unfold Storage.GetPR
  rw [h0]
  simp only [hf]

theorem Storage.GetUser_error {db : Store} {fl : Fault} {userID : String} {e : Err}
    (h : Storage.GetUser db fl userID = .error e) : e = .ErrNotFound ∨ ∃ c, e = .driver c := by
  unfold Storage.GetUser at h
  split at h
  · cases h; exact Or.inr ⟨_, rfl⟩
  · split at h
    · cases h; exact Or.inl rfl
    · cases h

theorem Storage.GetTeamMembers_error {db : Store} {fl : Fault} {teamName : String} {e : Err}
    (h : Storage.GetTeamMembers db fl teamName = .error e) : ∃ c, e = .driver c := by
  unfold Storage.GetTeamMembers at h
  split at h
  · cases h; exact ⟨_, rfl⟩
  · cases h

theorem Storage.BeginTx_error {db : Store} {fl : Fault} {e : Err}
    (h : Storage.BeginTx db fl = .error e) : ∃ c, e = .driver c := by
  unfold Storage.BeginTx at h
  split at h
  · cases h; exact ⟨_, rfl⟩
  · cases h

theorem Storage.Commit_error {tx : Tx} {fl : Fault} {e : Err}
    (h : Storage.Commit tx fl = .error e) : ∃ c, e = .driver c := by
  unfold Storage.Commit at h
  split at h
  · cases h; exact ⟨_, rfl⟩
  · cases h

theorem Storage.RemoveReviewer_error {tx : Tx} {fl : Fault} {prID userID : String} {e : Err}
    (h : Storage.RemoveReviewer tx fl prID userID = .error e) : ∃ c, e = .driver c := by
  unfold Storage.RemoveReviewer at h
  split at h
  · cases h; exact ⟨_, rfl⟩
  · cases h

theorem Storage.AddReviewer_error {tx : Tx} {fl : Fault} {prID userID : String} {e : Err}
    (h : Storage.AddReviewer tx fl prID userID = .error e) : ∃ c, e = .driver c := by
  unfold Storage.AddReviewer at h
  split at h
  · cases h; exact ⟨_, rfl⟩
  · cases h

theorem Service.ReassignReviewer_noCandidates_only (repo : Store) (f : Faults) (rng : Rng)
    (prID oldUserID : String)
    (h : (Service.ReassignReviewer repo f rng prID oldUserID).ret.err =
      some .ErrNoCandidates) :
    ∃ pr oldUser roster,
      Storage.GetPR repo f.GetPR prID = .ok pr ∧ pr.Status ≠ "MERGED" ∧
      oldUserID ∈ Service.busyIDs pr ∧
      Storage.GetUser repo f.GetUser oldUserID = .ok oldUser ∧
      Storage.GetTeamMembers repo f.GetTeamMembers oldUser.TeamName = .ok roster ∧
      Service.reassignCandidates roster pr = [] := by
  unfold Service.ReassignReviewer at h
  split at h
  · rename_i e he
    rcases Storage.GetPR_error he with rfl | ⟨c, rfl⟩ <;> simp at h
  · rename_i pr hpr
    split at h
    · simp at h
    · rename_i hst
      split at h
      · simp at h
      · rename_i has
        split at h
        · rename_i e he
          rcases Storage.GetUser_error he with rfl | ⟨c, rfl⟩ <;> simp at h
        · rename_i oldUser hu
          dsimp only at h
          split at h
          · rename_i e he
            obtain ⟨c, rfl⟩ := Storage.GetTeamMembers_error he
            simp at h
          · rename_i roster hm
            split at h
            · rename_i hz
              refine ⟨pr, oldUser, roster, hpr, by simpa using hst, ?_, hu, hm,
                List.eq_nil_of_length_eq_zero hz⟩
              rw [← Service.isAssigned_iff]
              simpa using has
            · split at h
              · rename_i e he
                obtain ⟨c, rfl⟩ := Storage.BeginTx_error he
                simp at h
              · split at h
                · rename_i e he
                  obtain ⟨c, rfl⟩ := Storage.RemoveReviewer_error he
                  simp at h
                · split at h
                  · rename_i e he
                    obtain ⟨c, rfl⟩ := Storage.AddReviewer_error he
                    simp at h
                  · split at h
                    · rename_i e he
                      obtain ⟨c, rfl⟩ := Storage.Commit_error he
                      simp at h
                    · split at h
                      · rename_i e he
                        rcases Storage.GetPR_error he with rfl | ⟨c, rfl⟩ <;> simp at h
                      · simp at h


/-! ## CreatePR: the chosen reviewers -/

theorem Service.chooseReviewers_eq (c : List User) :
    Service.chooseReviewers c = (c.take 2).map (fun u => u.ID) := by
  unfold Service.chooseReviewers
  by_cases h : c.length < 2
  · simp only [h, if_true]
    rw [List.take_of_length_le (le_refl _), List.take_of_length_le (by omega)]
  · simp only [h, if_false]

theorem Service.length_chooseReviewers (c : List User) :
    (Service.chooseReviewers c).length = min 2 c.length := by
  rw [Service.chooseReviewers_eq, List.length_map, List.length_take]

theorem Service.mem_createCandidates (roster : List User) (author u : User) :
    u ∈ Service.createCandidates roster author ↔
      u ∈ roster ∧ u.IsActive = true ∧ u.ID ≠ author.ID := by
  simp [Service.createCandidates, List.mem_filter]

theorem Service.mem_chooseReviewers {rng : Rng} (hs : rng.ShuffleSound) {roster : List User}
    {author : User} {uid : String}
    (h : uid ∈ Service.chooseReviewers (rng.Shuffle (Service.createCandidates roster author))) :
    ∃ u ∈ roster, u.ID = uid ∧ u.IsActive = true ∧ u.ID ≠ author.ID := by
  rw [Service.chooseReviewers_eq, List.mem_map] at h
  obtain ⟨u, hu, rfl⟩ := h
  have h1 : u ∈ rng.Shuffle (Service.createCandidates roster author) := List.mem_of_mem_take hu
  have h2 := (hs _).mem_iff.1 h1
  rw [Service.mem_createCandidates] at h2
  exact ⟨u, h2.1, rfl, h2.2⟩

theorem Service.nodup_chooseReviewers {rng : Rng} (hs : rng.ShuffleSound) {roster : List User}
    {author : User} (hnd : (roster.map (fun u => u.ID)).Nodup) :
    (Service.chooseReviewers (rng.Shuffle (Service.createCandidates roster author))).Nodup := by
  rw [Service.chooseReviewers_eq]
  have h1 : ((Service.createCandidates roster author).map (fun u => u.ID)).Nodup :=
    hnd.sublist ((List.filter_sublist _).map _)
  have h2 : ((rng.Shuffle (Service.createCandidates roster author)).map (fun u => u.ID)).Nodup :=
    ((hs _).map _).nodup_iff.2 h1
  exact h2.sublist ((List.take_sublist _ _).map _)

theorem reviewerIDs_fresh {repo : Store} (hc : repo.Consistent) {reqID : String}
    (hfresh : ∀ row ∈ repo.pull_requests, row.ID ≠ reqID) : reviewerIDs repo reqID = [] := by
  unfold reviewerIDs
  rw [List.map_eq_nil_iff, List.filter_eq_nil_iff]
  intro l hl
  obtain ⟨row, hrow, hid⟩ := hc.2 l hl
  have := hfresh row hrow
  simpa [← hid] using this

theorem Service.CreatePR_ok_of_empty {repo : Store} {f : Faults} {rng : Rng} {now : Nat}
    {reqID name authorID : String} {author : User} {roster : List User}
    (hu : Storage.GetUser repo f.GetUser authorID = .ok author)
    (ht : Storage.GetTeamMembers repo f.GetTeamMembers author.TeamName = .ok roster)
    (hk : Service.chooseReviewers (rng.Shuffle (Service.createCandidates roster author)) = [])
    (hb : f.BeginTx 0 = none) (hsv : f.SavePR 0 = none)
    (hfresh : ∀ row ∈ repo.pull_requests, row.ID ≠ reqID) (hcm : f.Commit 0 = none) :
    Service.CreatePR repo f rng now reqID name authorID =
      ⟨.ok (Service.newPullRequest now reqID name authorID),
        { repo with pull_requests :=
            repo.pull_requests ++ [Service.newPullRequest now reqID name authorID] },
        [Event.GetUser authorID, Event.GetTeamMembers author.TeamName, Event.BeginTx,
          Event.SavePR (Service.newPullRequest now reqID name authorID), Event.Commit,
          Event.Rollback]⟩ := by
  have hany : (repo.pull_requests.any fun row => row.ID == reqID) = false := by
    rw [← Bool.not_eq_true, List.any_eq_true]
    rintro ⟨row, hrow, h⟩
    exact hfresh row hrow (by simpa using h)
  unfold Service.CreatePR
  rw [hu]
  dsimp only
  rw [ht]
  dsimp only
  simp [hk, Storage.BeginTx, hb, Storage.SavePR, hsv, Storage.Commit, hcm, hany,
    Service.newPullRequest]

theorem idRng_sound : idRng.ShuffleSound := fun l => List.Perm.refl l

theorem revRng_sound : revRng.ShuffleSound := fun l => List.reverse_perm l


/-! ## Invariants of the store -/

theorem Consistent_created {repo : Store} (hc : repo.Consistent) (pr : PullRequest)
    (ids : List String) (hfresh : ∀ row ∈ repo.pull_requests, row.ID ≠ pr.ID) :
    Store.Consistent { repo with
      pull_requests := repo.pull_requests ++ [pr],
      pr_reviewers := repo.pr_reviewers ++
        ids.map (fun uid => { PRID := pr.ID, UserID := uid }) } := by
  constructor
  · show ((repo.pull_requests ++ [pr]).map (fun row => row.ID)).Nodup
    rw [List.map_append, List.nodup_append]
    refine ⟨hc.1, by simp, ?_⟩
    intro a ha hb
    simp only [List.map_cons, List.map_nil, List.mem_singleton] at hb
    subst hb
    obtain ⟨row, hrow, hid⟩ := List.mem_map.1 ha
    exact hfresh row hrow hid
  · intro l hl
    show ∃ row ∈ repo.pull_requests ++ [pr], row.ID = l.PRID
    have hl1 : l ∈ repo.pr_reviewers ++
        ids.map (fun uid => ({ PRID := pr.ID, UserID := uid } : PRReviewerPair)) := hl
    rcases List.mem_append.1 hl1 with h | h
    · obtain ⟨row, hrow, hid⟩ := hc.2 l h
      exact ⟨row, List.mem_append_left _ hrow, hid⟩
    · obtain ⟨uid, _, rfl⟩ := List.mem_map.1 h
      exact ⟨pr, by simp, rfl⟩

theorem Consistent_swapped {repo : Store} (hc : repo.Consistent) (prID old new : String)
    (hex : ∃ row ∈ repo.pull_requests, row.ID = prID) :
    Store.Consistent { repo with
      pr_reviewers :=
        repo.pr_reviewers.filter (fun l => !(l.PRID == prID && l.UserID == old)) ++
          [{ PRID := prID, UserID := new }] } := by
  refine ⟨hc.1, ?_⟩
  intro l hl
  show ∃ row ∈ repo.pull_requests, row.ID = l.PRID
  have hl1 : l ∈ repo.pr_reviewers.filter (fun l => !(l.PRID == prID && l.UserID == old)) ++
      [({ PRID := prID, UserID := new } : PRReviewerPair)] := hl
  rcases List.mem_append.1 hl1 with h | h
  · exact hc.2 l (List.mem_of_mem_filter h)
  · rw [List.mem_singleton] at h
    subst h
    exact hex

theorem Storage.GetPR_row {db : Store} {fl : Fault} {prID : String} {pr : PullRequest}
    (h : Storage.GetPR db fl prID = .ok pr) :
    ∃ row ∈ db.pull_requests, row.ID = prID ∧ row.AuthorID = pr.AuthorID ∧
      row.Status = pr.Status := by
  obtain ⟨row, hfind, hrow⟩ := Storage.GetPR_ok h
  subst hrow
  exact ⟨row, List.mem_of_find?_eq_some hfind, by simpa using List.find?_some hfind, rfl, rfl⟩

theorem Service.CreatePR_preserves (repo : Store) (f : Faults) (rng : Rng) (now : Nat)
    (reqID name authorID : String) (hs : rng.ShuffleSound) (hc : repo.Consistent) :
    (Service.CreatePR repo f rng now reqID name authorID).db.Consistent ∧
    (NoSelfReview repo →
      NoSelfReview (Service.CreatePR repo f rng now reqID name authorID).db) ∧
    (RostersDistinct repo → NoDuplicateReviewers repo →
      NoDuplicateReviewers (Service.CreatePR repo f rng now reqID name authorID).db) := by
  rcases Service.CreatePR_cases repo f rng now reqID name authorID with
    ⟨hdb, _⟩ | ⟨author, roster, hu, ht, hfresh, _, hdb⟩
  · rw [hdb]
    exact ⟨hc, fun h => h, fun _ h => h⟩
  · have hid : author.ID = authorID := (Storage.GetUser_ok hu).2
    rw [hdb]
    refine ⟨Consistent_created hc (Service.newPullRequest now reqID name authorID) _ hfresh,
      ?_, ?_⟩
    · intro hinv row hrow
      rw [reviewerIDs_created]
      have hrow1 : row ∈ repo.pull_requests ++
          [Service.newPullRequest now reqID name authorID] := hrow
      rcases List.mem_append.1 hrow1 with h | h
      · have hne : ¬ reqID = row.ID := fun e => hfresh row h e.symm
        rw [if_neg hne, List.append_nil]
        exact hinv row h
      · rw [List.mem_singleton] at h
        subst h
        show authorID ∉ reviewerIDs repo reqID ++ (if reqID = reqID then _ else [])
        rw [if_pos rfl, reviewerIDs_fresh hc hfresh, List.nil_append]
        intro hmem
        obtain ⟨u, _, h1, _, h3⟩ := Service.mem_chooseReviewers hs hmem
        exact h3 (h1.trans hid.symm)
    · intro hr hnd p
      rw [reviewerIDs_created]
      by_cases hp : reqID = p
      · subst hp
        rw [if_pos rfl, reviewerIDs_fresh hc hfresh, List.nil_append]
        apply Service.nodup_chooseReviewers hs
        rw [Storage.GetTeamMembers_ok ht]
        exact hr _
      · rw [if_neg hp, List.append_nil]
        exact hnd p

theorem Service.ReassignReviewer_preserves (repo : Store) (f : Faults) (rng : Rng)
    (prID oldUserID : String) :
    (repo.Consistent → (Service.ReassignReviewer repo f rng prID oldUserID).db.Consistent) ∧
    (repo.Consistent → NoSelfReview repo →
      NoSelfReview (Service.ReassignReviewer repo f rng prID oldUserID).db) ∧
    (NoDuplicateReviewers repo →
      NoDuplicateReviewers (Service.ReassignReviewer repo f rng prID oldUserID).db) := by
  rcases Service.ReassignReviewer_cases repo f rng prID oldUserID with
    ⟨hdb, _⟩ | ⟨pr, oldUser, roster, nr, hpr, hst, has, hu, hm, hnr, hdb, hrep, hret⟩
  · rw [hdb]
    exact ⟨fun h => h, fun _ h => h, fun h => h⟩
  · obtain ⟨row0, hrow0, hid0, hauth0, _⟩ := Storage.GetPR_row hpr
    obtain ⟨_, _, hauth, hbusy⟩ := (Service.mem_reassignCandidates _ _ _).1 hnr
    rw [Storage.GetPR_busyIDs hpr] at hbusy
    rw [hdb]
    refine ⟨fun hc => Consistent_swapped hc prID oldUserID nr.ID ⟨row0, hrow0, hid0⟩, ?_, ?_⟩
    · intro hc hinv row hrow
      rw [reviewerIDs_swapped]
      have hrow1 : row ∈ repo.pull_requests := hrow
      by_cases hp : row.ID = prID
      · have hrow_eq : row = row0 :=
          List.inj_on_of_nodup_map hc.1 hrow1 hrow0 (hp.trans hid0.symm)
        show row.AuthorID ∉ if row.ID = prID then _ else _
        rw [if_pos hp]
        intro hmem
        rcases List.mem_append.1 hmem with h | h
        · have := hinv row hrow1
          rw [hp] at this
          exact this (List.mem_of_mem_filter h)
        · rw [List.mem_singleton] at h
          apply hauth
          rw [← hauth0, ← hrow_eq, h]
      · show row.AuthorID ∉ if row.ID = prID then _ else _
        rw [if_neg hp]
        exact hinv row hrow1
    · intro hnd p
      rw [reviewerIDs_swapped]
      by_cases hp : p = prID
      · rw [if_pos hp, List.nodup_append]
        refine ⟨(hnd prID).filter _, List.nodup_singleton _, ?_⟩
        intro a ha hb
        rw [List.mem_singleton] at hb
        subst hb
        exact hbusy (List.mem_of_mem_filter ha)
      · rw [if_neg hp]
        exact hnd p

theorem NoDuplicateReviewers_of_nodup {db : Store} (h : db.pr_reviewers.Nodup) :
    NoDuplicateReviewers db := by
  intro prID
  unfold reviewerIDs
  apply List.Nodup.map_on _ (h.filter _)
  intro a ha b hb hab
  have h1 : a.PRID = prID := by simpa using (List.mem_filter.1 ha).2
  have h2 : b.PRID = prID := by simpa using (List.mem_filter.1 hb).2
  cases a
  cases b
  simp only at h1 h2 hab
  rw [h1, h2, hab]

theorem RostersDistinct_of_nodup {db : Store} (h : (db.users.map (fun u => u.ID)).Nodup) :
    RostersDistinct db := fun _ => h.sublist ((List.filter_sublist _).map _)

theorem openStore4_consistent : openStore4.Consistent := ⟨by decide, by decide⟩

theorem openStore4_noSelfReview : NoSelfReview openStore4 := by
  unfold NoSelfReview
  decide


/-! ## Failures inside the transaction -/

theorem Storage.Commit_error_indep {tx tx1 : Tx} {fl : Fault} {e : Err}
    (h : Storage.Commit tx fl = .error e) : Storage.Commit tx1 fl = .error e := by
  unfold Storage.Commit at h ⊢
  split at h
  · exact h
  · cases h

theorem Storage.RemoveReviewer_error_indep {tx tx1 : Tx} {fl : Fault} {p u p1 u1 : String}
    {e : Err} (h : Storage.RemoveReviewer tx fl p u = .error e) :
    Storage.RemoveReviewer tx1 fl p1 u1 = .error e := by
  unfold Storage.RemoveReviewer at h ⊢
  split at h
  · exact h
  · cases h

theorem Storage.AddReviewer_error_indep {tx tx1 : Tx} {fl : Fault} {p u p1 u1 : String}
    {e : Err} (h : Storage.AddReviewer tx fl p u = .error e) :
    Storage.AddReviewer tx1 fl p1 u1 = .error e := by
  unfold Storage.AddReviewer at h ⊢
  split at h
  · exact h
  · cases h

theorem Storage.saveReviewersFrom_error_indep (fl : Fault) (prID : String) :
    ∀ (ids : List String) (i : Nat) (tx tx1 : Tx) (e : Err),
      Storage.saveReviewersFrom fl prID i ids tx = .error e →
      Storage.saveReviewersFrom fl prID i ids tx1 = .error e := by
  intro ids
  induction ids with
  | nil =>
    intro i tx tx1 e h
    simp only [Storage.saveReviewersFrom] at h
    cases h
  | cons uid rest ih =>
    intro i tx tx1 e h
    simp only [Storage.saveReviewersFrom] at h ⊢
    split at h
    · exact h
    · exact ih _ _ _ _ h

theorem Storage.SaveReviewers_error_indep {tx tx1 : Tx} {fl : Fault} {prID : String}
    {ids : List String} {e : Err} (h : Storage.SaveReviewers tx fl prID ids = .error e) :
    Storage.SaveReviewers tx1 fl prID ids = .error e :=
  Storage.saveReviewersFrom_error_indep fl prID ids 0 tx tx1 e h

theorem Service.CreatePR_write_failures (repo : Store) (f : Faults) (rng : Rng) (now : Nat)
    (reqID name authorID : String) :
    (∀ pr e, Event.SavePR pr ∈ (Service.CreatePR repo f rng now reqID name authorID).trace →
      Storage.SavePR { pending := repo } f.SavePR pr = .error e →
      (Service.CreatePR repo f rng now reqID name authorID).ret = .error e ∧
      ∀ p ids, Event.SaveReviewers p ids ∉
        (Service.CreatePR repo f rng now reqID name authorID).trace) ∧
    (∀ p ids tx e,
      Event.SaveReviewers p ids ∈ (Service.CreatePR repo f rng now reqID name authorID).trace →
      Storage.SaveReviewers tx f.SaveReviewers p ids = .error e →
      (Service.CreatePR repo f rng now reqID name authorID).ret = .error e) ∧
    (∀ tx e, Event.Commit ∈ (Service.CreatePR repo f rng now reqID name authorID).trace →
      Storage.Commit tx f.Commit = .error e →
      (Service.CreatePR repo f rng now reqID name authorID).ret = .error e) := by
  unfold Service.CreatePR
  split
  · simp
  · rename_i author hu
    split
    · simp
    · rename_i roster ht
      dsimp only
      split
      · simp
      · rename_i tx hb
        have htx := Storage.BeginTx_ok hb
        subst htx
        split
        · rename_i err hs
          refine ⟨?_, by simp, by simp⟩
          intro pr e hmem herr
          simp at hmem
          subst hmem
          rw [hs] at herr
          cases herr
          simp
        · rename_i tx1 hs
          by_cases hlen : (Service.chooseReviewers
              (rng.Shuffle (Service.createCandidates roster author))).length > 0
          · simp only [hlen, if_true]
            split
            · rename_i err hsv
              refine ⟨?_, ?_, by simp⟩
              · intro pr e hmem herr
                simp at hmem
                subst hmem
                rw [hs] at herr
                cases herr
              · intro p ids tx e hmem herr
                simp at hmem
                obtain ⟨rfl, rfl⟩ := hmem
                have h3 := hsv.symm.trans (Storage.SaveReviewers_error_indep herr)
                cases h3
                rfl
            · rename_i tx2 hsv
              split
              · rename_i err hc
                refine ⟨?_, ?_, ?_⟩
                · intro pr e hmem herr
                  simp at hmem
                  subst hmem
                  rw [hs] at herr
                  cases herr
                · intro p ids tx e hmem herr
                  simp at hmem
                  obtain ⟨rfl, rfl⟩ := hmem
                  have h3 := hsv.symm.trans (Storage.SaveReviewers_error_indep herr)
                  cases h3
                · intro tx e _ herr
                  rw [Storage.Commit_error_indep herr] at hc
                  cases hc
                  rfl
              · rename_i db hc
                refine ⟨?_, ?_, ?_⟩
                · intro pr e hmem herr
                  simp at hmem
                  subst hmem
                  rw [hs] at herr
                  cases herr
                · intro p ids tx e hmem herr
                  simp at hmem
                  obtain ⟨rfl, rfl⟩ := hmem
                  have h3 := hsv.symm.trans (Storage.SaveReviewers_error_indep herr)
                  cases h3
                · intro tx e _ herr
                  rw [Storage.Commit_error_indep herr] at hc
                  cases hc
          · simp only [hlen, if_false]
            split
            · rename_i err hc
              refine ⟨?_, by simp, ?_⟩
              · intro pr e hmem herr
                simp at hmem
                subst hmem
                rw [hs] at herr
                cases herr
              · intro tx e _ herr
                rw [Storage.Commit_error_indep herr] at hc
                cases hc
                rfl
            · rename_i db hc
              refine ⟨?_, by simp, ?_⟩
              · intro pr e hmem herr
                simp at hmem
                subst hmem
                rw [hs] at herr
                cases herr
              · intro tx e _ herr
                rw [Storage.Commit_error_indep herr] at hc
                cases hc

theorem Service.ReassignReviewer_write_failures (repo : Store) (f : Faults) (rng : Rng)
    (prID oldUserID : String) :
    (∀ p u tx e,
      Event.RemoveReviewer p u ∈ (Service.ReassignReviewer repo f rng prID oldUserID).trace →
      Storage.RemoveReviewer tx f.RemoveReviewer p u = .error e →
      (Service.ReassignReviewer repo f rng prID oldUserID).ret = ⟨none, "", some e⟩ ∧
      (Service.ReassignReviewer repo f rng prID oldUserID).db = repo) ∧
    (∀ p u tx e,
      Event.AddReviewer p u ∈ (Service.ReassignReviewer repo f rng prID oldUserID).trace →
      Storage.AddReviewer tx f.AddReviewer p u = .error e →
      (Service.ReassignReviewer repo f rng prID oldUserID).ret = ⟨none, "", some e⟩ ∧
      (Service.ReassignReviewer repo f rng prID oldUserID).db = repo) ∧
    (∀ tx e, Event.Commit ∈ (Service.ReassignReviewer repo f rng prID oldUserID).trace →
      Storage.Commit tx f.Commit = .error e →
      (Service.ReassignReviewer repo f rng prID oldUserID).ret = ⟨none, "", some e⟩ ∧
      (Service.ReassignReviewer repo f rng prID oldUserID).db = repo) := by
  unfold Service.ReassignReviewer
  split
  · simp
  · split
    · simp
    · split
      · simp
      · split
        · simp
        · dsimp only
          split
          · simp
          · split
            · simp
            · split
              · simp
              · split
                · rename_i err hr
                  refine ⟨?_, by simp, by simp⟩
                  intro p u tx e _ herr
                  have h3 := hr.symm.trans (Storage.RemoveReviewer_error_indep herr)
                  cases h3
                  exact ⟨rfl, rfl⟩
                · rename_i tx1 hr
                  split
                  · rename_i err ha
                    refine ⟨?_, ?_, by simp⟩
                    · intro p u tx e _ herr
                      have h3 := hr.symm.trans (Storage.RemoveReviewer_error_indep herr)
                      cases h3
                    · intro p u tx e _ herr
                      have h3 := ha.symm.trans (Storage.AddReviewer_error_indep herr)
                      cases h3
                      exact ⟨rfl, rfl⟩
                  · rename_i tx2 ha
                    split
                    · rename_i err hc
                      refine ⟨?_, ?_, ?_⟩
                      · intro p u tx e _ herr
                        have h3 := hr.symm.trans (Storage.RemoveReviewer_error_indep herr)
                        cases h3
                      · intro p u tx e _ herr
                        have h3 := ha.symm.trans (Storage.AddReviewer_error_indep herr)
                        cases h3
                      · intro tx e _ herr
                        have h3 := hc.symm.trans (Storage.Commit_error_indep herr)
                        cases h3
                        exact ⟨rfl, rfl⟩
                    · rename_i db hc
                      have key : ∀ (P : Prop),
                          ((∀ (p u : String) (tx : Tx) (e : Err),
                            Storage.RemoveReviewer tx f.RemoveReviewer p u = .error e → P) ∧
                          (∀ (p u : String) (tx : Tx) (e : Err),
                            Storage.AddReviewer tx f.AddReviewer p u = .error e → P) ∧
                          (∀ (tx : Tx) (e : Err),
                            Storage.Commit tx f.Commit = .error e → P)) := by
                        intro P
                        refine ⟨?_, ?_, ?_⟩
                        · intro p u tx e herr
                          have h3 := hr.symm.trans (Storage.RemoveReviewer_error_indep herr)
                          cases h3
                        · intro p u tx e herr
                          have h3 := ha.symm.trans (Storage.AddReviewer_error_indep herr)
                          cases h3
                        · intro tx e herr
                          have h3 := hc.symm.trans (Storage.Commit_error_indep herr)
                          cases h3
                      split
                      · exact ⟨fun p u tx e _ h => (key _).1 p u tx e h,
                          fun p u tx e _ h => (key _).2.1 p u tx e h,
                          fun tx e _ h => (key _).2.2 tx e h⟩
                      · exact ⟨fun p u tx e _ h => (key _).1 p u tx e h,
                          fun p u tx e _ h => (key _).2.1 p u tx e h,
                          fun tx e _ h => (key _).2.2 tx e h⟩

/-! ## Position of the reads in the call trace -/

theorem Service.CreatePR_trace_shape (repo : Store) (f : Faults) (rng : Rng) (now : Nat)
    (reqID name authorID : String) :
    (∀ e ∈ (Service.CreatePR repo f rng now reqID name authorID).trace, e.isWrite = false) ∨
    ∃ author roster rest,
      Storage.GetUser repo f.GetUser authorID = .ok author ∧
      Storage.GetTeamMembers repo f.GetTeamMembers author.TeamName = .ok roster ∧
      (Service.CreatePR repo f rng now reqID name authorID).trace =
        [Event.GetUser authorID, Event.GetTeamMembers author.TeamName, Event.BeginTx] ++ rest ∧
      ∀ e ∈ rest, e.isRead = false := by
  unfold Service.CreatePR
  split
  · left; intro e he; simp at he; subst he; rfl
  · rename_i author hu
    split
    · left; intro e he; simp at he; rcases he with rfl | rfl <;> rfl
    · rename_i roster ht
      dsimp only
      split
      · exact Or.inr ⟨author, roster, [], hu, ht, rfl, by simp⟩
      · split
        · refine Or.inr ⟨author, roster, _, hu, ht, rfl, ?_⟩
          intro e he
          simp at he
          rcases he with rfl | rfl <;> rfl
        · by_cases hlen : (Service.chooseReviewers
              (rng.Shuffle (Service.createCandidates roster author))).length > 0
          · simp only [hlen, if_true]
            split
            · refine Or.inr ⟨author, roster, _, hu, ht, rfl, ?_⟩
              intro e he
              simp at he
              rcases he with rfl | rfl | rfl <;> rfl
            · split
              · refine Or.inr ⟨author, roster, _, hu, ht, rfl, ?_⟩
                intro e he
                simp at he
                rcases he with rfl | rfl | rfl | rfl <;> rfl
              · refine Or.inr ⟨author, roster, _, hu, ht, rfl, ?_⟩
                intro e he
                simp at he
                rcases he with rfl | rfl | rfl | rfl <;> rfl
          · simp only [hlen, if_false]
            split
            · refine Or.inr ⟨author, roster, _, hu, ht, rfl, ?_⟩
              intro e he
              simp at he
              rcases he with rfl | rfl | rfl <;> rfl
            · refine Or.inr ⟨author, roster, _, hu, ht, rfl, ?_⟩
              intro e he
              simp at he
              rcases he with rfl | rfl | rfl <;> rfl

theorem Service.ReassignReviewer_trace_shape (repo : Store) (f : Faults) (rng : Rng)
    (prID oldUserID : String) :
    (∀ e ∈ (Service.ReassignReviewer repo f rng prID oldUserID).trace, e.isWrite = false) ∨
    ∃ pr oldUser roster writes tail,
      Storage.GetPR repo f.GetPR prID = .ok pr ∧
      Storage.GetUser repo f.GetUser oldUserID = .ok oldUser ∧
      Storage.GetTeamMembers repo f.GetTeamMembers oldUser.TeamName = .ok roster ∧
      (Service.ReassignReviewer repo f rng prID oldUserID).trace =
        [Event.GetPR prID, Event.GetUser oldUserID, Event.GetTeamMembers oldUser.TeamName,
          Event.BeginTx] ++ (writes ++ tail) ∧
      (∀ e ∈ writes, e.isRead = false) ∧
      (tail = [] ∨ ∃ more, tail = Event.Commit :: more) := by
  unfold Service.ReassignReviewer
  split
  · left; intro e he; simp at he; subst he; rfl
  · rename_i pr hpr
    split
    · left; intro e he; simp at he; subst he; rfl
    · split
      · left; intro e he; simp at he; subst he; rfl
      · split
        · left; intro e he; simp at he; rcases he with rfl | rfl <;> rfl
        · rename_i oldUser hu
          dsimp only
          split
          · left; intro e he; simp at he; rcases he with rfl | rfl | rfl <;> rfl
          · rename_i roster ht
            split
            · left; intro e he; simp at he; rcases he with rfl | rfl | rfl <;> rfl
            · right
              split
              · exact ⟨pr, oldUser, roster, [], [], hpr, hu, ht, rfl, by simp, Or.inl rfl⟩
              · split
                · refine ⟨pr, oldUser, roster,
                    [Event.RemoveReviewer prID oldUserID, Event.Rollback], [], hpr, hu, ht, rfl,
                    ?_, Or.inl rfl⟩
                  intro e he
                  simp at he
                  rcases he with rfl | rfl <;> rfl
                · split
                  · refine ⟨pr, oldUser, roster,
                      [Event.RemoveReviewer prID oldUserID, Event.AddReviewer prID _,
                        Event.Rollback], [], hpr, hu, ht, rfl, ?_, Or.inl rfl⟩
                    intro e he
                    simp at he
                    rcases he with rfl | rfl | rfl <;> rfl
                  · split
                    · refine ⟨pr, oldUser, roster,
                        [Event.RemoveReviewer prID oldUserID, Event.AddReviewer prID _],
                        [Event.Commit, Event.Rollback], hpr, hu, ht, rfl, ?_, Or.inr ⟨_, rfl⟩⟩
                      intro e he
                      simp at he
                      rcases he with rfl | rfl <;> rfl
                    · split
                      · refine ⟨pr, oldUser, roster,
                          [Event.RemoveReviewer prID oldUserID, Event.AddReviewer prID _],
                          [Event.Commit, Event.GetPR prID, Event.Rollback], hpr, hu, ht, rfl,
                          ?_, Or.inr ⟨_, rfl⟩⟩
                        intro e he
                        simp at he
                        rcases he with rfl | rfl <;> rfl
                      · refine ⟨pr, oldUser, roster,
                          [Event.RemoveReviewer prID oldUserID, Event.AddReviewer prID _],
                          [Event.Commit, Event.GetPR prID, Event.Rollback], hpr, hu, ht, rfl,
                          ?_, Or.inr ⟨_, rfl⟩⟩
                        intro e he
                        simp at he
                        rcases he with rfl | rfl <;> rfl

/-! ## Properties of the engine -/

/-- C1 (code defect). On the store of TestHappyPath (team u1, u2, u3, all active) CreatePR for
author u1 succeeds, passes the two ids u2 and u3 to SaveReviewers and persists them, but the
PullRequest it returns has an empty Reviewers list, where the test expects two reviewers. -/
theorem C1_returned_pr_has_no_reviewers :
    (Service.CreatePR gophers noFaults idRng 0 "pr-1" "Fix" "u1").ret =
      .ok (Service.newPullRequest 0 "pr-1" "Fix" "u1") ∧
    (Service.newPullRequest 0 "pr-1" "Fix" "u1").Reviewers = [] ∧
    (Service.newPullRequest 0 "pr-1" "Fix" "u1").Reviewers.length ≠ 2 ∧
    Event.SaveReviewers "pr-1" ["u2", "u3"] ∈
      (Service.CreatePR gophers noFaults idRng 0 "pr-1" "Fix" "u1").trace ∧
    reviewerIDs (Service.CreatePR gophers noFaults idRng 0 "pr-1" "Fix" "u1").db "pr-1" =
      ["u2", "u3"] := by
  refine ⟨by rfl, by rfl, by decide, by decide, by decide⟩

/-- C2 (cap of two at creation). Let k be the number of members of the roster read for the
author's team that are active and are not the author. For every shuffle that rearranges the
candidates, a successful CreatePR commits the new pull-request row and appends exactly
min(2, k) reviewer links for it, each the id of an active roster member other than the author;
when k is at most 2 the links are all the candidates in some order; on a consistent store
these are all the links of the new pull request. When k = 0 and BeginTx, SavePR and Commit do
not fail, the call succeeds and commits the row with no link. -/
theorem C2_min_two_reviewers (repo : Store) (f : Faults) (rng : Rng) (now : Nat)
    (reqID name authorID : String) (author : User) (roster : List User)
    (hs : rng.ShuffleSound)
    (hu : Storage.GetUser repo f.GetUser authorID = .ok author)
    (ht : Storage.GetTeamMembers repo f.GetTeamMembers author.TeamName = .ok roster) :
    (∀ pr, (Service.CreatePR repo f rng now reqID name authorID).ret = .ok pr →
      ∃ ids : List String,
        (Service.CreatePR repo f rng now reqID name authorID).db.pull_requests =
          repo.pull_requests ++ [Service.newPullRequest now reqID name authorID] ∧
        (Service.CreatePR repo f rng now reqID name authorID).db.pr_reviewers =
          repo.pr_reviewers ++ ids.map (fun uid => { PRID := reqID, UserID := uid }) ∧
        ids.length =
          min 2 (roster.filter (fun u => u.IsActive && u.ID != authorID)).length ∧
        (∀ uid ∈ ids, ∃ u ∈ roster, u.ID = uid ∧ u.IsActive = true ∧ u.ID ≠ authorID) ∧
        ((roster.filter (fun u => u.IsActive && u.ID != authorID)).length ≤ 2 →
          ids.Perm ((roster.filter (fun u => u.IsActive && u.ID != authorID)).map
            (fun u => u.ID))) ∧
        (repo.Consistent →
          reviewerIDs (Service.CreatePR repo f rng now reqID name authorID).db reqID = ids)) ∧
    ((roster.filter (fun u => u.IsActive && u.ID != authorID)).length = 0 →
      f.BeginTx 0 = none → f.SavePR 0 = none →
      (∀ row ∈ repo.pull_requests, row.ID ≠ reqID) → f.Commit 0 = none →
      (Service.CreatePR repo f rng now reqID name authorID).ret =
        .ok (Service.newPullRequest now reqID name authorID) ∧
      (Service.CreatePR repo f rng now reqID name authorID).db =
        { repo with pull_requests :=
            repo.pull_requests ++ [Service.newPullRequest now reqID name authorID] }) := by
  have hid : author.ID = authorID := (Storage.GetUser_ok hu).2
  have hcand : Service.createCandidates roster author =
      roster.filter (fun u => u.IsActive && u.ID != authorID) := by
    rw [Service.createCandidates, hid]
  have hlen : (rng.Shuffle (Service.createCandidates roster author)).length =
      (roster.filter (fun u => u.IsActive && u.ID != authorID)).length := by
    rw [(hs _).length_eq, hcand]
  constructor
  · intro pr hret
    rcases Service.CreatePR_cases repo f rng now reqID name authorID with
      ⟨_, e, he⟩ | ⟨author1, roster1, hu1, ht1, hfresh, _, hdb⟩
    · rw [he] at hret
      cases hret
    · rw [hu] at hu1
      cases hu1
      rw [ht] at ht1
      cases ht1
      refine ⟨Service.chooseReviewers (rng.Shuffle (Service.createCandidates roster author)),
        by rw [hdb], by rw [hdb], ?_, ?_, ?_, ?_⟩
      · rw [Service.length_chooseReviewers, hlen]
      · intro uid huid
        obtain ⟨u, hmem, h1, h2, h3⟩ := Service.mem_chooseReviewers hs huid
        exact ⟨u, hmem, h1, h2, hid ▸ h3⟩
      · intro hk
        rw [Service.chooseReviewers_eq, List.take_of_length_le (by omega), ← hcand]
        exact (hs _).map _
      · intro hc
        rw [hdb, reviewerIDs_created, reviewerIDs_fresh hc hfresh]
        simp
  · intro hk hb hsv hfresh hcm
    have hnil : Service.chooseReviewers
        (rng.Shuffle (Service.createCandidates roster author)) = [] := by
      apply List.eq_nil_of_length_eq_zero
      rw [Service.length_chooseReviewers, hlen, hk]
      rfl
    rw [Service.CreatePR_ok_of_empty hu ht hnil hb hsv hfresh hcm]
    exact ⟨rfl, rfl⟩

/-- Witness of C2. Scenario A: roster u1 (author), u2, u3, all active, with the reversing
shuffle: the two links of pr-1 are a rearrangement of u2, u3. Scenario B: roster u1 (author),
u2: the only link is u2. Author alone in the team: pr-1 is committed without any link. -/
theorem C2_min_two_reviewers_witness :
    revRng.ShuffleSound ∧
    ((Service.CreatePR gophers noFaults revRng 0 "pr-1" "Fix" "u1").ret =
        .ok (Service.newPullRequest 0 "pr-1" "Fix" "u1") ∧
      ∃ ids : List String,
        (Service.CreatePR gophers noFaults revRng 0 "pr-1" "Fix" "u1").db.pr_reviewers =
          ids.map (fun uid => { PRID := "pr-1", UserID := uid }) ∧
        ids.length = 2 ∧ ids.Perm ["u2", "u3"]) ∧
    (∃ ids : List String,
      (Service.CreatePR pairStore noFaults revRng 0 "pr-1" "Fix" "u1").db.pr_reviewers =
        ids.map (fun uid => { PRID := "pr-1", UserID := uid }) ∧
      ids.length = 1 ∧ ids.Perm ["u2"]) ∧
    ((Service.CreatePR soloStore noFaults revRng 0 "pr-1" "Fix" "u1").ret =
        .ok (Service.newPullRequest 0 "pr-1" "Fix" "u1") ∧
      (Service.CreatePR soloStore noFaults revRng 0 "pr-1" "Fix" "u1").db =
        { soloStore with pull_requests := [Service.newPullRequest 0 "pr-1" "Fix" "u1"] }) := by
  obtain ⟨ids, _, h2, h3, _, h5, _⟩ :=
    (C2_min_two_reviewers gophers noFaults revRng 0 "pr-1" "Fix" "u1" alice
      [alice, bob, charlie] revRng_sound (by rfl) (by rfl)).1
      (Service.newPullRequest 0 "pr-1" "Fix" "u1") (by rfl)
  obtain ⟨ids1, _, k2, k3, _, k5, _⟩ :=
    (C2_min_two_reviewers pairStore noFaults revRng 0 "pr-1" "Fix" "u1" alice
      [alice, bob] revRng_sound (by rfl) (by rfl)).1
      (Service.newPullRequest 0 "pr-1" "Fix" "u1") (by rfl)
  exact ⟨revRng_sound, ⟨by rfl, ids, h2, h3, h5 (by decide)⟩, ⟨ids1, k2, k3, k5 (by decide)⟩,
    (C2_min_two_reviewers soloStore noFaults revRng 0 "pr-1" "Fix" "u1" alice
      [alice] revRng_sound (by rfl) (by rfl)).2 (by decide) (by rfl) (by rfl) (by decide)
      (by rfl)⟩

/-- C3 (no self-review is preserved). On a consistent store in which no pull request has
its author among its reviewer links, every call of CreatePR and of ReassignReviewer, failed
or successful, for every fault, every shuffle that rearranges the candidates and every
random index, leaves a consistent store with the same property. The ids CreatePR passes to
SaveReviewers never include authorID, and the id ReassignReviewer passes to AddReviewer is
never the AuthorID of the pull request it read. -/
theorem C3_no_self_review (repo : Store) (f : Faults) (rng : Rng) (now : Nat)
    (reqID name authorID prID oldUserID : String)
    (hs : rng.ShuffleSound) (hc : repo.Consistent) (hinv : NoSelfReview repo) :
    ((Service.CreatePR repo f rng now reqID name authorID).db.Consistent ∧
      NoSelfReview (Service.CreatePR repo f rng now reqID name authorID).db) ∧
    ((Service.ReassignReviewer repo f rng prID oldUserID).db.Consistent ∧
      NoSelfReview (Service.ReassignReviewer repo f rng prID oldUserID).db) ∧
    (∀ p ids, Event.SaveReviewers p ids ∈
        (Service.CreatePR repo f rng now reqID name authorID).trace → authorID ∉ ids) ∧
    (∀ p uid pr, Event.AddReviewer p uid ∈
        (Service.ReassignReviewer repo f rng prID oldUserID).trace →
      Storage.GetPR repo f.GetPR prID = .ok pr → uid ≠ pr.AuthorID) := by
  have h1 := Service.CreatePR_preserves repo f rng now reqID name authorID hs hc
  have h2 := Service.ReassignReviewer_preserves repo f rng prID oldUserID
  refine ⟨⟨h1.1, h1.2.1 hinv⟩, ⟨h2.1 hc, h2.2.1 hc hinv⟩, ?_, ?_⟩
  · intro p ids hmem
    rcases Service.CreatePR_trace repo f rng now reqID name authorID with
      hno | ⟨author, roster, tx1, rest, hu, ht, _, htr, hrest⟩
    · exact absurd hmem (hno p ids)
    · rw [htr] at hmem
      simp only [List.cons_append, List.nil_append, List.mem_cons, reduceCtorEq, false_or,
        Event.SaveReviewers.injEq] at hmem
      rcases hmem with ⟨_, rfl⟩ | hmem
      · intro hin
        obtain ⟨u, _, hid, _, hne⟩ := Service.mem_chooseReviewers hs hin
        exact hne (hid.trans (Storage.GetUser_ok hu).2.symm)
      · exact absurd hmem (hrest p ids)
  · intro p uid pr hmem hpr
    rcases Service.ReassignReviewer_trace repo f rng prID oldUserID with
      hno | ⟨pr1, oldUser, roster, nr, hpr1, _, _, _, _, hnr, hadd⟩
    · have := hno _ hmem
      simp [Event.isWrite] at this
    · rw [hpr] at hpr1
      cases hpr1
      rw [(hadd p uid hmem).2]
      exact ((Service.mem_reassignCandidates _ _ _).1 hnr).2.2.1

/-- Witness of C3 on openStore4: creating pr-2 for author u1 and reassigning u2 on pr-1 both
leave a store without self-review. -/
theorem C3_no_self_review_witness :
    openStore4.Consistent ∧ NoSelfReview openStore4 ∧
    NoSelfReview (Service.CreatePR openStore4 noFaults revRng 0 "pr-2" "Add" "u1").db ∧
    NoSelfReview (Service.ReassignReviewer openStore4 noFaults revRng "pr-1" "u2").db :=
  have h := C3_no_self_review openStore4 noFaults revRng 0 "pr-2" "Add" "u1" "pr-1" "u2"
    revRng_sound openStore4_consistent openStore4_noSelfReview
  ⟨openStore4_consistent, openStore4_noSelfReview, h.1.2, h.2.1.2⟩

/-- C4 (no duplicate reviewers is preserved). On a consistent store whose team rosters
never list a user id twice and where the reviewer links of every pull request are pairwise
distinct, every call of CreatePR and of ReassignReviewer, failed or successful, for every
fault, every shuffle that rearranges the candidates and every random index, leaves the
reviewer links of every pull request pairwise distinct. The ids CreatePR passes to
SaveReviewers are pairwise distinct, and the id ReassignReviewer passes to AddReviewer is
not among the reviewers of the pull request, so not among those left by RemoveReviewer. -/
theorem C4_no_duplicate_reviewers (repo : Store) (f : Faults) (rng : Rng) (now : Nat)
    (reqID name authorID prID oldUserID : String)
    (hs : rng.ShuffleSound) (hc : repo.Consistent) (hr : RostersDistinct repo)
    (hinv : NoDuplicateReviewers repo) :
    NoDuplicateReviewers (Service.CreatePR repo f rng now reqID name authorID).db ∧
    NoDuplicateReviewers (Service.ReassignReviewer repo f rng prID oldUserID).db ∧
    (∀ p ids, Event.SaveReviewers p ids ∈
        (Service.CreatePR repo f rng now reqID name authorID).trace → ids.Nodup) ∧
    (∀ p uid, Event.AddReviewer p uid ∈
        (Service.ReassignReviewer repo f rng prID oldUserID).trace →
      uid ∉ reviewerIDs repo prID ∧
      uid ∉ (reviewerIDs repo prID).filter (fun x => x != oldUserID)) := by
  have h1 := Service.CreatePR_preserves repo f rng now reqID name authorID hs hc
  have h2 := Service.ReassignReviewer_preserves repo f rng prID oldUserID
  refine ⟨h1.2.2 hr hinv, h2.2.2 hinv, ?_, ?_⟩
  · intro p ids hmem
    rcases Service.CreatePR_trace repo f rng now reqID name authorID with
      hno | ⟨author, roster, tx1, rest, hu, ht, _, htr, hrest⟩
    · exact absurd hmem (hno p ids)
    · rw [htr] at hmem
      simp only [List.cons_append, List.nil_append, List.mem_cons, reduceCtorEq, false_or,
        Event.SaveReviewers.injEq] at hmem
      rcases hmem with ⟨_, rfl⟩ | hmem
      · apply Service.nodup_chooseReviewers hs
        rw [Storage.GetTeamMembers_ok ht]
        exact hr _
      · exact absurd hmem (hrest p ids)
  · intro p uid hmem
    rcases Service.ReassignReviewer_trace repo f rng prID oldUserID with
      hno | ⟨pr1, oldUser, roster, nr, hpr1, _, _, _, _, hnr, hadd⟩
    · have := hno _ hmem
      simp [Event.isWrite] at this
    · rw [(hadd p uid hmem).2]
      have hb := ((Service.mem_reassignCandidates _ _ _).1 hnr).2.2.2
      rw [Storage.GetPR_busyIDs hpr1] at hb
      exact ⟨hb, fun h => hb (List.mem_of_mem_filter h)⟩

/-- Witness of C4 on openStore4: creating pr-2 for author u1 and reassigning u2 on pr-1 both
leave every pull request without repeated reviewers. -/
theorem C4_no_duplicate_reviewers_witness :
    RostersDistinct openStore4 ∧ NoDuplicateReviewers openStore4 ∧
    NoDuplicateReviewers (Service.CreatePR openStore4 noFaults revRng 0 "pr-2" "Add" "u1").db ∧
    NoDuplicateReviewers (Service.ReassignReviewer openStore4 noFaults revRng "pr-1" "u2").db :=
  have hr : RostersDistinct openStore4 := RostersDistinct_of_nodup (by decide)
  have hn : NoDuplicateReviewers openStore4 := NoDuplicateReviewers_of_nodup (by decide)
  have h := C4_no_duplicate_reviewers openStore4 noFaults revRng 0 "pr-2" "Add" "u1" "pr-1"
    "u2" revRng_sound openStore4_consistent hr hn
  ⟨hr, hn, h.1, h.2.1⟩

/-- C5 (terminal lock). When the pull request read by ReassignReviewer is MERGED, the call
returns ErrPRMerged with no pull request and no replacement id, its only repository call is
the read GetPR (no BeginTx, no RemoveReviewer, no AddReviewer), and the committed store, hence
the reviewer set of the pull request, is exactly as before, for every oldUserID, roster,
random source and fault of the later calls. -/
theorem C5_terminal_lock (repo : Store) (f : Faults) (rng : Rng) (prID oldUserID : String)
    (pr : PullRequest) (hpr : Storage.GetPR repo f.GetPR prID = .ok pr)
    (hm : pr.Status = "MERGED") :
    (Service.ReassignReviewer repo f rng prID oldUserID).ret =
      ⟨none, "", some .ErrPRMerged⟩ ∧
    (Service.ReassignReviewer repo f rng prID oldUserID).trace = [Event.GetPR prID] ∧
    Event.BeginTx ∉ (Service.ReassignReviewer repo f rng prID oldUserID).trace ∧
    (∀ e ∈ (Service.ReassignReviewer repo f rng prID oldUserID).trace, e.isWrite = false) ∧
    (Service.ReassignReviewer repo f rng prID oldUserID).db = repo ∧
    reviewerIDs (Service.ReassignReviewer repo f rng prID oldUserID).db prID =
      reviewerIDs repo prID := by
  rw [Service.ReassignReviewer_merged hpr hm]
  refine ⟨rfl, rfl, by simp, ?_, rfl, rfl⟩
  intro e he
  simp at he
  subst he
  rfl

/-- Witness of C5 on scenario D: pr-1 is MERGED; reassigning its reviewer u2, or the
non-reviewer u9, is refused with ErrPRMerged and nothing changes. -/
theorem C5_terminal_lock_witness :
    Storage.GetPR mergedStore noFaults.GetPR "pr-1" = .ok (readPR "MERGED") ∧
    (readPR "MERGED").Status = "MERGED" ∧
    (Service.ReassignReviewer mergedStore noFaults idRng "pr-1" "u9").ret =
      ⟨none, "", some .ErrPRMerged⟩ ∧
    (Service.ReassignReviewer mergedStore noFaults idRng "pr-1" "u9").db = mergedStore :=
  ⟨by rfl, by rfl,
    (C5_terminal_lock mergedStore noFaults idRng "pr-1" "u9" (readPR "MERGED")
      (by rfl) (by rfl)).1,
    (C5_terminal_lock mergedStore noFaults idRng "pr-1" "u9" (readPR "MERGED")
      (by rfl) (by rfl)).2.2.2.2.1⟩

/-- C6 (swap postcondition). After a successful ReassignReviewer(prID, old) on a store where
the reviewer ids of prID are R, the reviewer ids of prID in the committed store are R without
old followed by the returned replacement: the replacement was not in R, old was in R and is
gone, every other member of R is kept, nothing else is added, and when R has no repeated
member the size is that of R. The returned pull request is the one re-read by GetPR from the
committed store and lists exactly these reviewers. -/
theorem C6_swap_postcondition (repo : Store) (f : Faults) (rng : Rng)
    (prID oldUserID : String)
    (hok : (Service.ReassignReviewer repo f rng prID oldUserID).ret.err = none) :
    ∃ updatedPR,
      (Service.ReassignReviewer repo f rng prID oldUserID).ret.pr = some updatedPR ∧
      Storage.GetPR (Service.ReassignReviewer repo f rng prID oldUserID).db
        f.GetPRAfterCommit prID = .ok updatedPR ∧
      Service.busyIDs updatedPR =
        reviewerIDs (Service.ReassignReviewer repo f rng prID oldUserID).db prID ∧
      reviewerIDs (Service.ReassignReviewer repo f rng prID oldUserID).db prID =
        (reviewerIDs repo prID).filter (fun x => x != oldUserID) ++
          [(Service.ReassignReviewer repo f rng prID oldUserID).ret.replacedBy] ∧
      oldUserID ∈ reviewerIDs repo prID ∧
      (Service.ReassignReviewer repo f rng prID oldUserID).ret.replacedBy ∉
        reviewerIDs repo prID ∧
      oldUserID ∉ reviewerIDs (Service.ReassignReviewer repo f rng prID oldUserID).db prID ∧
      (Service.ReassignReviewer repo f rng prID oldUserID).ret.replacedBy ∈
        reviewerIDs (Service.ReassignReviewer repo f rng prID oldUserID).db prID ∧
      (∀ x, x ∈ reviewerIDs (Service.ReassignReviewer repo f rng prID oldUserID).db prID ↔
        (x ∈ reviewerIDs repo prID ∧ x ≠ oldUserID) ∨
          x = (Service.ReassignReviewer repo f rng prID oldUserID).ret.replacedBy) ∧
      ((reviewerIDs repo prID).Nodup →
        (reviewerIDs (Service.ReassignReviewer repo f rng prID oldUserID).db prID).length =
          (reviewerIDs repo prID).length ∧
        (reviewerIDs (Service.ReassignReviewer repo f rng prID oldUserID).db prID).Nodup) := by
  rcases Service.ReassignReviewer_cases repo f rng prID oldUserID with
    ⟨_, e, he⟩ | ⟨pr, oldUser, roster, nr, hpr, hst, has, hu, hm, hnr, hdb, hrep, hret⟩
  · rw [he] at hok
    cases hok
  · rcases hret with ⟨e, _, he⟩ | ⟨updatedPR, hg, he⟩
    · rw [he] at hok
      cases hok
    · have hbusy := Storage.GetPR_busyIDs hpr
      have hold : oldUserID ∈ reviewerIDs repo prID := by
        rw [← hbusy]; exact (Service.isAssigned_iff _ _).1 has
      have hnew : nr.ID ∉ reviewerIDs repo prID := by
        rw [← hbusy]
        exact ((Service.mem_reassignCandidates _ _ _).1 hnr).2.2.2
      have hids : reviewerIDs (Service.ReassignReviewer repo f rng prID oldUserID).db prID =
          (reviewerIDs repo prID).filter (fun x => x != oldUserID) ++ [nr.ID] := by
        rw [hdb, reviewerIDs_swapped, if_pos rfl]
      refine ⟨updatedPR, by rw [he], hg, Storage.GetPR_busyIDs hg, ?_, hold, ?_, ?_, ?_, ?_, ?_⟩
      · rw [hids, hrep]
      · rw [hrep]; exact hnew
      · rw [hids]
        simp only [List.mem_append, List.mem_filter, List.mem_singleton, not_or]
        refine ⟨fun h => by simp at h, ?_⟩
        rintro rfl
        exact hnew hold
      · rw [hids, hrep]
        simp
      · intro x
        rw [hids, hrep]
        simp
      · intro hnd
        rw [hids]
        constructor
        · rw [List.length_append, List.length_singleton]
          exact length_filter_ne_of_nodup _ _ hnd hold
        · rw [List.nodup_append]
          refine ⟨hnd.filter _, List.nodup_singleton _, ?_⟩
          intro a ha hb
          rw [List.mem_singleton] at hb
          subst hb
          exact hnew (List.mem_of_mem_filter ha)

/-- Witness of C6: on openStore4 (reviewers u2, u3; u4 free) reassigning u2 succeeds, returns
u4 and the reviewers become u3, u4. -/
theorem C6_swap_postcondition_witness :
    (Service.ReassignReviewer openStore4 noFaults idRng "pr-1" "u2").ret.err = none ∧
    (Service.ReassignReviewer openStore4 noFaults idRng "pr-1" "u2").ret.replacedBy = "u4" ∧
    ∃ updatedPR,
      (Service.ReassignReviewer openStore4 noFaults idRng "pr-1" "u2").ret.pr =
        some updatedPR ∧
      Service.busyIDs updatedPR = ["u3", "u4"] := by
  obtain ⟨updatedPR, h1, _, h3, h4, _⟩ :=
    C6_swap_postcondition openStore4 noFaults idRng "pr-1" "u2" (by rfl)
  refine ⟨by rfl, by rfl, updatedPR, h1, ?_⟩
  rw [h3, h4]
  decide


/-- C7 (no-candidate safety). For a pull request that is OPEN, a current reviewer oldUserID
whose user record and team roster are read, and a roster without any user that is active, is
not the author and is not a current reviewer: ReassignReviewer returns ErrNoCandidates, issues
only the three reads (no transaction, no write), leaves the store as it was, and a later
GetPR returns the same pull request, whose reviewers still contain oldUserID. -/
theorem C7_no_candidate_safety (repo : Store) (f : Faults) (rng : Rng)
    (prID oldUserID : String) (pr : PullRequest) (oldUser : User) (roster : List User)
    (hpr : Storage.GetPR repo f.GetPR prID = .ok pr) (hopen : pr.Status = "OPEN")
    (hold : oldUserID ∈ Service.busyIDs pr)
    (hu : Storage.GetUser repo f.GetUser oldUserID = .ok oldUser)
    (ht : Storage.GetTeamMembers repo f.GetTeamMembers oldUser.TeamName = .ok roster)
    (hnone : ∀ u ∈ roster,
      ¬ (u.IsActive = true ∧ u.ID ≠ pr.AuthorID ∧ u.ID ∉ Service.busyIDs pr)) :
    (Service.ReassignReviewer repo f rng prID oldUserID).ret =
      ⟨none, "", some .ErrNoCandidates⟩ ∧
    (Service.ReassignReviewer repo f rng prID oldUserID).trace =
      [Event.GetPR prID, Event.GetUser oldUserID, Event.GetTeamMembers oldUser.TeamName] ∧
    (∀ e ∈ (Service.ReassignReviewer repo f rng prID oldUserID).trace, e.isWrite = false) ∧
    (Service.ReassignReviewer repo f rng prID oldUserID).db = repo ∧
    Storage.GetPR (Service.ReassignReviewer repo f rng prID oldUserID).db f.GetPR prID =
      .ok pr ∧
    reviewerIDs (Service.ReassignReviewer repo f rng prID oldUserID).db prID =
      reviewerIDs repo prID ∧
    oldUserID ∈ reviewerIDs (Service.ReassignReviewer repo f rng prID oldUserID).db prID := by
  have hm : pr.Status ≠ "MERGED" := by rw [hopen]; decide
  have hc : Service.reassignCandidates roster pr = [] := by
    apply List.eq_nil_iff_forall_not_mem.2
    intro u hmem
    rw [Service.mem_reassignCandidates] at hmem
    exact hnone u hmem.1 hmem.2
  have hids : Service.busyIDs pr = reviewerIDs repo prID := by
    obtain ⟨row, _, hrow⟩ := Storage.GetPR_ok hpr
    subst hrow
    simp [Service.busyIDs, Storage.reviewerStub, Function.comp_def]
  rw [Service.ReassignReviewer_noCandidates hpr hm hold hu ht hc]
  refine ⟨rfl, rfl, ?_, rfl, hpr, rfl, ?_⟩
  · intro e he
    simp at he
    rcases he with rfl | rfl | rfl <;> rfl
  · rw [← hids]; exact hold

/-- Witness of C7 on scenario C: author u1, reviewers u2 and u3, team u1, u2, u3. Reassigning
away from u2 fails with ErrNoCandidates and the reviewers are still u2 and u3. -/
theorem C7_no_candidate_safety_witness :
    (Service.ReassignReviewer openStore noFaults idRng "pr-1" "u2").ret =
      ⟨none, "", some .ErrNoCandidates⟩ ∧
    reviewerIDs (Service.ReassignReviewer openStore noFaults idRng "pr-1" "u2").db "pr-1" =
      ["u2", "u3"] :=
  have h := C7_no_candidate_safety openStore noFaults idRng "pr-1" "u2" (readPR "OPEN") bob
    [alice, bob, charlie] (by rfl) (by rfl) (by decide) (by rfl) (by rfl) (by decide)
  ⟨h.1, h.2.2.2.2.2.1.trans (by decide)⟩

/-- C8 (validation order of ReassignReviewer, first failing check wins).
(1) When GetPR fails the call returns that error; for an absent prID (and a working read)
this is ErrNotFound, whatever oldUserID is.
(2) Otherwise, when the status is MERGED the result is ErrPRMerged, whatever oldUserID and
the candidates are.
(3) Otherwise, when oldUserID is not among the current reviewers the result is
ErrNotAssigned, whether or not oldUserID is a user and whatever the candidates are.
(4) ErrNoCandidates is returned only when the pull request was read, is not MERGED and
oldUserID is among its reviewers.
In all four cases the store is unchanged and the trace holds no write and no BeginTx. -/
theorem C8_validation_order (repo : Store) (f : Faults) (rng : Rng)
    (prID oldUserID : String) :
    (∀ e, Storage.GetPR repo f.GetPR prID = .error e →
      Service.ReassignReviewer repo f rng prID oldUserID =
        ⟨⟨none, "", some e⟩, repo, [Event.GetPR prID]⟩) ∧
    (f.GetPR 0 = none → (∀ row ∈ repo.pull_requests, row.ID ≠ prID) →
      Service.ReassignReviewer repo f rng prID oldUserID =
        ⟨⟨none, "", some .ErrNotFound⟩, repo, [Event.GetPR prID]⟩) ∧
    (∀ pr, Storage.GetPR repo f.GetPR prID = .ok pr → pr.Status = "MERGED" →
      Service.ReassignReviewer repo f rng prID oldUserID =
        ⟨⟨none, "", some .ErrPRMerged⟩, repo, [Event.GetPR prID]⟩) ∧
    (∀ pr, Storage.GetPR repo f.GetPR prID = .ok pr → pr.Status ≠ "MERGED" →
      oldUserID ∉ Service.busyIDs pr →
      Service.ReassignReviewer repo f rng prID oldUserID =
        ⟨⟨none, "", some .ErrNotAssigned⟩, repo, [Event.GetPR prID]⟩) ∧
    ((Service.ReassignReviewer repo f rng prID oldUserID).ret.err = some .ErrNoCandidates →
      (∃ pr, Storage.GetPR repo f.GetPR prID = .ok pr ∧ pr.Status ≠ "MERGED" ∧
        oldUserID ∈ Service.busyIDs pr) ∧
      (Service.ReassignReviewer repo f rng prID oldUserID).db = repo ∧
      ∀ e ∈ (Service.ReassignReviewer repo f rng prID oldUserID).trace,
        e.isWrite = false) := by
  refine ⟨fun e he => Service.ReassignReviewer_getPR_error he, ?_,
    fun pr hpr hm => Service.ReassignReviewer_merged hpr hm,
    fun pr hpr hm hna => Service.ReassignReviewer_notAssigned hpr hm hna, ?_⟩
  · intro h0 habs
    exact Service.ReassignReviewer_getPR_error (Storage.GetPR_absent h0 habs)
  · intro h
    obtain ⟨pr, oldUser, roster, hpr, hm, ha, hu, ht, hc⟩ :=
      Service.ReassignReviewer_noCandidates_only repo f rng prID oldUserID h
    refine ⟨⟨pr, hpr, hm, ha⟩, ?_⟩
    rw [Service.ReassignReviewer_noCandidates hpr hm ha hu ht hc]
    refine ⟨rfl, ?_⟩
    intro e he
    simp at he
    rcases he with rfl | rfl | rfl <;> rfl

/-- Witness of C8: an absent pull request gives ErrNotFound; on the MERGED pr-1 the unknown
user u9 gives ErrPRMerged; on the OPEN pr-1 the unknown user u9 gives ErrNotAssigned; and
the ErrNoCandidates of scenario C comes with a read, OPEN pull request and an assigned u2. -/
theorem C8_validation_order_witness :
    Service.ReassignReviewer gophers noFaults idRng "pr-1" "u2" =
      ⟨⟨none, "", some .ErrNotFound⟩, gophers, [Event.GetPR "pr-1"]⟩ ∧
    Service.ReassignReviewer mergedStore noFaults idRng "pr-1" "u9" =
      ⟨⟨none, "", some .ErrPRMerged⟩, mergedStore, [Event.GetPR "pr-1"]⟩ ∧
    Service.ReassignReviewer openStore noFaults idRng "pr-1" "u9" =
      ⟨⟨none, "", some .ErrNotAssigned⟩, openStore, [Event.GetPR "pr-1"]⟩ ∧
    (Service.ReassignReviewer openStore noFaults idRng "pr-1" "u2").db = openStore :=
  ⟨(C8_validation_order gophers noFaults idRng "pr-1" "u2").2.1 (by rfl) (by decide),
    (C8_validation_order mergedStore noFaults idRng "pr-1" "u9").2.2.1 (readPR "MERGED")
      (by rfl) (by rfl),
    (C8_validation_order openStore noFaults idRng "pr-1" "u9").2.2.2.1 (readPR "OPEN")
      (by rfl) (by decide) (by decide),
    ((C8_validation_order openStore noFaults idRng "pr-1" "u2").2.2.2.2 (by rfl)).2.1⟩

/-- C9 (replacement eligibility). A roster user is in the candidate list of ReassignReviewer
exactly when it is active, is not the author and is not a current reviewer, and the list holds
roster users only. The replacement id returned by a successful call is the id of a candidate
built from the roster of the old reviewer's team and the pull request the call read: an
active user of that team in the store, not the author, not a current reviewer, and not
oldUserID. -/
theorem C9_replacement_eligibility (repo : Store) (f : Faults) (rng : Rng)
    (prID oldUserID : String) :
    (∀ (roster : List User) (pr : PullRequest) (u : User), u ∈ roster →
      (u ∈ Service.reassignCandidates roster pr ↔
        u.IsActive = true ∧ u.ID ≠ pr.AuthorID ∧ u.ID ∉ Service.busyIDs pr)) ∧
    (∀ (roster : List User) (pr : PullRequest) (u : User),
      u ∈ Service.reassignCandidates roster pr → u ∈ roster) ∧
    ((Service.ReassignReviewer repo f rng prID oldUserID).ret.err = none →
      ∃ pr oldUser roster u,
        Storage.GetPR repo f.GetPR prID = .ok pr ∧
        Storage.GetUser repo f.GetUser oldUserID = .ok oldUser ∧
        Storage.GetTeamMembers repo f.GetTeamMembers oldUser.TeamName = .ok roster ∧
        oldUserID ∈ Service.busyIDs pr ∧
        u ∈ Service.reassignCandidates roster pr ∧
        (Service.ReassignReviewer repo f rng prID oldUserID).ret.replacedBy = u.ID ∧
        u ∈ repo.users ∧ u.TeamName = oldUser.TeamName ∧ u.IsActive = true ∧
        u.ID ≠ pr.AuthorID ∧ u.ID ∉ Service.busyIDs pr ∧ u.ID ≠ oldUserID) := by
  refine ⟨?_, ?_, ?_⟩
  · intro roster pr u hu
    rw [Service.mem_reassignCandidates]
    exact ⟨fun h => h.2, fun h => ⟨hu, h⟩⟩
  · intro roster pr u h
    exact ((Service.mem_reassignCandidates _ _ _).1 h).1
  · intro hok
    rcases Service.ReassignReviewer_cases repo f rng prID oldUserID with
      ⟨_, e, he⟩ | ⟨pr, oldUser, roster, nr, hpr, hst, has, hu, hm, hnr, hdb, hrep, hret⟩
    · rw [he] at hok
      cases hok
    · have hold : oldUserID ∈ Service.busyIDs pr := (Service.isAssigned_iff _ _).1 has
      obtain ⟨hmem, hact, hauth, hbusy⟩ := (Service.mem_reassignCandidates _ _ _).1 hnr
      have hroster := Storage.GetTeamMembers_ok hm
      rw [hroster, List.mem_filter] at hmem
      refine ⟨pr, oldUser, roster, nr, hpr, hu, hm, hold, hnr, hrep, hmem.1,
        by simpa using hmem.2, hact, hauth, hbusy, ?_⟩
      intro h
      exact hbusy (h ▸ hold)

/-- Witness of C9: on openStore4 the successful reassignment away from u2 returns u4, the
only active member of the team that is neither the author u1 nor a reviewer. -/
theorem C9_replacement_eligibility_witness :
    (dave ∈ Service.reassignCandidates [alice, bob, charlie, dave] (readPR "OPEN") ↔
      dave.IsActive = true ∧ dave.ID ≠ (readPR "OPEN").AuthorID ∧
        dave.ID ∉ Service.busyIDs (readPR "OPEN")) ∧
    ∃ u, (Service.ReassignReviewer openStore4 noFaults idRng "pr-1" "u2").ret.replacedBy =
        u.ID ∧ u ∈ openStore4.users ∧ u.IsActive = true ∧ u.ID ≠ "u2" := by
  have h := C9_replacement_eligibility openStore4 noFaults idRng "pr-1" "u2"
  refine ⟨h.1 [alice, bob, charlie, dave] (readPR "OPEN") dave (by decide), ?_⟩
  obtain ⟨pr, oldUser, roster, u, _, _, _, _, _, hrep, hmem, _, hact, _, _, hne⟩ :=
    h.2.2 (by rfl)
  exact ⟨u, hrep, hmem, hact, hne⟩

/-- C10 (rollback on a storage failure inside the transaction). A transaction is a working
copy that only a successful Commit turns into the committed store.
CreatePR: whenever it returns an error the committed store is the one before the call, so
it holds neither the new row nor any new link; a failing SavePR, SaveReviewers or Commit
that the call issued makes it return exactly that error; after a failing SavePR no
SaveReviewers is issued, and SaveReviewers is only ever issued directly after a SavePR that
succeeded.
ReassignReviewer: a failing RemoveReviewer, AddReviewer or Commit that the call issued makes
it return exactly that error with the committed store unchanged; after any write the old
reviewer is among the reviewers read before the call and, when the store is unchanged, is
still assigned while the id passed to AddReviewer is not. -/
theorem C10_rollback (repo : Store) (f : Faults) (rng : Rng) (now : Nat)
    (reqID name authorID prID oldUserID : String) :
    (∀ e, (Service.CreatePR repo f rng now reqID name authorID).ret = .error e →
      (Service.CreatePR repo f rng now reqID name authorID).db = repo) ∧
    (∀ pr e, Event.SavePR pr ∈ (Service.CreatePR repo f rng now reqID name authorID).trace →
      Storage.SavePR { pending := repo } f.SavePR pr = .error e →
      (Service.CreatePR repo f rng now reqID name authorID).ret = .error e ∧
      (Service.CreatePR repo f rng now reqID name authorID).db = repo ∧
      ∀ p ids, Event.SaveReviewers p ids ∉
        (Service.CreatePR repo f rng now reqID name authorID).trace) ∧
    (∀ p ids tx e,
      Event.SaveReviewers p ids ∈ (Service.CreatePR repo f rng now reqID name authorID).trace →
      Storage.SaveReviewers tx f.SaveReviewers p ids = .error e →
      (Service.CreatePR repo f rng now reqID name authorID).ret = .error e ∧
      (Service.CreatePR repo f rng now reqID name authorID).db = repo) ∧
    (∀ tx e, Event.Commit ∈ (Service.CreatePR repo f rng now reqID name authorID).trace →
      Storage.Commit tx f.Commit = .error e →
      (Service.CreatePR repo f rng now reqID name authorID).ret = .error e ∧
      (Service.CreatePR repo f rng now reqID name authorID).db = repo) ∧
    (∀ p ids,
      Event.SaveReviewers p ids ∈ (Service.CreatePR repo f rng now reqID name authorID).trace →
      ∃ tx1 before after,
        Storage.SavePR { pending := repo } f.SavePR
          (Service.newPullRequest now reqID name authorID) = .ok tx1 ∧
        (Service.CreatePR repo f rng now reqID name authorID).trace =
          before ++ [Event.SavePR (Service.newPullRequest now reqID name authorID),
            Event.SaveReviewers p ids] ++ after) ∧
    (∀ p u tx e,
      Event.RemoveReviewer p u ∈ (Service.ReassignReviewer repo f rng prID oldUserID).trace →
      Storage.RemoveReviewer tx f.RemoveReviewer p u = .error e →
      (Service.ReassignReviewer repo f rng prID oldUserID).ret = ⟨none, "", some e⟩ ∧
      (Service.ReassignReviewer repo f rng prID oldUserID).db = repo) ∧
    (∀ p u tx e,
      Event.AddReviewer p u ∈ (Service.ReassignReviewer repo f rng prID oldUserID).trace →
      Storage.AddReviewer tx f.AddReviewer p u = .error e →
      (Service.ReassignReviewer repo f rng prID oldUserID).ret = ⟨none, "", some e⟩ ∧
      (Service.ReassignReviewer repo f rng prID oldUserID).db = repo) ∧
    (∀ tx e, Event.Commit ∈ (Service.ReassignReviewer repo f rng prID oldUserID).trace →
      Storage.Commit tx f.Commit = .error e →
      (Service.ReassignReviewer repo f rng prID oldUserID).ret = ⟨none, "", some e⟩ ∧
      (Service.ReassignReviewer repo f rng prID oldUserID).db = repo) ∧
    (∀ ev ∈ (Service.ReassignReviewer repo f rng prID oldUserID).trace, ev.isWrite = true →
      oldUserID ∈ reviewerIDs repo prID ∧
      ((Service.ReassignReviewer repo f rng prID oldUserID).db = repo →
        oldUserID ∈ reviewerIDs (Service.ReassignReviewer repo f rng prID oldUserID).db prID ∧
        ∀ p u, Event.AddReviewer p u ∈
            (Service.ReassignReviewer repo f rng prID oldUserID).trace →
          u ∉ reviewerIDs (Service.ReassignReviewer repo f rng prID oldUserID).db prID)) := by
  have hroll : ∀ e, (Service.CreatePR repo f rng now reqID name authorID).ret = .error e →
      (Service.CreatePR repo f rng now reqID name authorID).db = repo := by
    intro e he
    rcases Service.CreatePR_cases repo f rng now reqID name authorID with
      ⟨hdb, _⟩ | ⟨_, _, _, _, _, hret, _⟩
    · exact hdb
    · rw [hret] at he
      cases he
  have hc := Service.CreatePR_write_failures repo f rng now reqID name authorID
  have hr := Service.ReassignReviewer_write_failures repo f rng prID oldUserID
  refine ⟨hroll, ?_, ?_, ?_, ?_, hr.1, hr.2.1, hr.2.2, ?_⟩
  · intro pr e hmem herr
    obtain ⟨h1, h2⟩ := hc.1 pr e hmem herr
    exact ⟨h1, hroll e h1, h2⟩
  · intro p ids tx e hmem herr
    have h1 := hc.2.1 p ids tx e hmem herr
    exact ⟨h1, hroll e h1⟩
  · intro tx e hmem herr
    have h1 := hc.2.2 tx e hmem herr
    exact ⟨h1, hroll e h1⟩
  · intro p ids hmem
    rcases Service.CreatePR_trace repo f rng now reqID name authorID with
      hno | ⟨author, roster, tx1, rest, hu, ht, hs, htr, hrest⟩
    · exact absurd hmem (hno p ids)
    · have hmem1 := hmem
      rw [htr] at hmem1
      simp only [List.cons_append, List.nil_append, List.mem_cons, reduceCtorEq, false_or,
        Event.SaveReviewers.injEq] at hmem1
      rcases hmem1 with ⟨rfl, rfl⟩ | hmem1
      · exact ⟨tx1, [Event.GetUser authorID, Event.GetTeamMembers author.TeamName,
          Event.BeginTx], rest, hs, by rw [htr]; rfl⟩
      · exact absurd hmem1 (hrest p ids)
  · intro ev hev hw
    rcases Service.ReassignReviewer_trace repo f rng prID oldUserID with
      hno | ⟨pr, oldUser, roster, nr, hpr, _, has, _, _, hnr, hadd⟩
    · rw [hno ev hev] at hw
      cases hw
    · have hbusy := Storage.GetPR_busyIDs hpr
      have hold : oldUserID ∈ reviewerIDs repo prID := by
        rw [← hbusy]
        exact (Service.isAssigned_iff _ _).1 has
      refine ⟨hold, ?_⟩
      intro hdb
      rw [hdb]
      refine ⟨hold, ?_⟩
      intro p u hmem
      rw [(hadd p u hmem).2, ← hbusy]
      exact ((Service.mem_reassignCandidates _ _ _).1 hnr).2.2.2

/-- Witness of C10: on the store of TestHappyPath a failure of the second INSERT of
SaveReviewers makes CreatePR return that driver error and commit nothing; on openStore4 a
failing AddReviewer and a failing Commit make ReassignReviewer return that driver error with
the store unchanged. -/
theorem C10_rollback_witness :
    ((Service.CreatePR gophers secondInsertFails idRng 0 "pr-1" "Fix" "u1").ret =
        .error (.driver 1) ∧
      (Service.CreatePR gophers secondInsertFails idRng 0 "pr-1" "Fix" "u1").db = gophers) ∧
    ((Service.CreatePR gophers commitFails idRng 0 "pr-1" "Fix" "u1").ret =
        .error (.driver 2) ∧
      (Service.CreatePR gophers commitFails idRng 0 "pr-1" "Fix" "u1").db = gophers) ∧
    ((Service.ReassignReviewer openStore4 addReviewerFails idRng "pr-1" "u2").ret =
        ⟨none, "", some (.driver 3)⟩ ∧
      (Service.ReassignReviewer openStore4 addReviewerFails idRng "pr-1" "u2").db =
        openStore4) ∧
    ((Service.ReassignReviewer openStore4 commitFails idRng "pr-1" "u2").ret =
        ⟨none, "", some (.driver 2)⟩ ∧
      (Service.ReassignReviewer openStore4 commitFails idRng "pr-1" "u2").db = openStore4) :=
  ⟨(C10_rollback gophers secondInsertFails idRng 0 "pr-1" "Fix" "u1" "pr-1" "u2").2.2.1
      "pr-1" ["u2", "u3"] { pending := gophers } (.driver 1) (by decide) (by rfl),
    (C10_rollback gophers commitFails idRng 0 "pr-1" "Fix" "u1" "pr-1" "u2").2.2.2.1
      { pending := gophers } (.driver 2) (by decide) (by rfl),
    (C10_rollback openStore4 addReviewerFails idRng 0 "pr-1" "Fix" "u1" "pr-1" "u2").2.2.2.2.2.2.1
      "pr-1" "u4" { pending := openStore4 } (.driver 3) (by decide) (by rfl),
    (C10_rollback openStore4 commitFails idRng 0 "pr-1" "Fix" "u1" "pr-1" "u2").2.2.2.2.2.2.2.1
      { pending := openStore4 } (.driver 2) (by decide) (by rfl)⟩

/-- C11 as stated fails. On the store of TestHappyPath the run of CreatePR reaches SavePR and
Commit, and on openStore4 the run of ReassignReviewer reaches RemoveReviewer and Commit, yet
in both traces the first call is a decision read (GetUser, GetPR) with no BeginTx before it:
the reads are not inside the transaction. -/
theorem C11_reads_inside_tx_counterexample :
    (Event.SavePR (Service.newPullRequest 0 "pr-1" "Fix" "u1") ∈
        (Service.CreatePR gophers noFaults idRng 0 "pr-1" "Fix" "u1").trace ∧
      Event.Commit ∈ (Service.CreatePR gophers noFaults idRng 0 "pr-1" "Fix" "u1").trace ∧
      ¬ ReadsInsideTx (Service.CreatePR gophers noFaults idRng 0 "pr-1" "Fix" "u1").trace) ∧
    (Event.RemoveReviewer "pr-1" "u2" ∈
        (Service.ReassignReviewer openStore4 noFaults idRng "pr-1" "u2").trace ∧
      Event.Commit ∈ (Service.ReassignReviewer openStore4 noFaults idRng "pr-1" "u2").trace ∧
      ¬ ReadsInsideTx (Service.ReassignReviewer openStore4 noFaults idRng "pr-1" "u2").trace) := by
  refine ⟨⟨by decide, by decide, ?_⟩, ⟨by decide, by decide, ?_⟩⟩
  · intro h
    have h1 := h [] (Event.GetUser "u1")
      [Event.GetTeamMembers "gophers", Event.BeginTx,
        Event.SavePR (Service.newPullRequest 0 "pr-1" "Fix" "u1"),
        Event.SaveReviewers "pr-1" ["u2", "u3"], Event.Commit, Event.Rollback]
      (by rfl) rfl (by simp)
    simp at h1
  · intro h
    have h1 := h [] (Event.GetPR "pr-1")
      [Event.GetUser "u2", Event.GetTeamMembers "gophers", Event.BeginTx,
        Event.RemoveReviewer "pr-1" "u2", Event.AddReviewer "pr-1" "u4", Event.Commit,
        Event.GetPR "pr-1", Event.Rollback]
      (by rfl) rfl (by simp)
    simp at h1

/-- C11 (amended). In every run of CreatePR and of ReassignReviewer that reaches BeginTx or a
write, the reads on which the decision is based succeeded on the committed store and are
issued before BeginTx, outside the transaction: the trace starts with GetUser,
GetTeamMembers (preceded by GetPR in ReassignReviewer) and BeginTx; after BeginTx CreatePR
issues no read at all, and ReassignReviewer issues no read before the Commit. No such run has
its reads inside the transaction. -/
theorem C11_reads_precede_transaction (repo : Store) (f : Faults) (rng : Rng) (now : Nat)
    (reqID name authorID prID oldUserID : String) :
    ((∃ e ∈ (Service.CreatePR repo f rng now reqID name authorID).trace, e.isWrite = true) →
      (∃ author roster rest,
        Storage.GetUser repo f.GetUser authorID = .ok author ∧
        Storage.GetTeamMembers repo f.GetTeamMembers author.TeamName = .ok roster ∧
        (Service.CreatePR repo f rng now reqID name authorID).trace =
          [Event.GetUser authorID, Event.GetTeamMembers author.TeamName, Event.BeginTx] ++
            rest ∧
        ∀ e ∈ rest, e.isRead = false) ∧
      ¬ ReadsInsideTx (Service.CreatePR repo f rng now reqID name authorID).trace) ∧
    ((∃ e ∈ (Service.ReassignReviewer repo f rng prID oldUserID).trace, e.isWrite = true) →
      (∃ pr oldUser roster writes tail,
        Storage.GetPR repo f.GetPR prID = .ok pr ∧
        Storage.GetUser repo f.GetUser oldUserID = .ok oldUser ∧
        Storage.GetTeamMembers repo f.GetTeamMembers oldUser.TeamName = .ok roster ∧
        (Service.ReassignReviewer repo f rng prID oldUserID).trace =
          [Event.GetPR prID, Event.GetUser oldUserID,
            Event.GetTeamMembers oldUser.TeamName, Event.BeginTx] ++ (writes ++ tail) ∧
        (∀ e ∈ writes, e.isRead = false) ∧
        (tail = [] ∨ ∃ more, tail = Event.Commit :: more)) ∧
      ¬ ReadsInsideTx (Service.ReassignReviewer repo f rng prID oldUserID).trace) := by
  constructor
  · rintro ⟨e, he, hw⟩
    rcases Service.CreatePR_trace_shape repo f rng now reqID name authorID with
      hno | ⟨author, roster, rest, hu, ht, htr, hrest⟩
    · rw [hno e he] at hw
      cases hw
    · refine ⟨⟨author, roster, rest, hu, ht, htr, hrest⟩, ?_⟩
      intro h
      have h1 := h [] (Event.GetUser authorID)
        ([Event.GetTeamMembers author.TeamName, Event.BeginTx] ++ rest) htr rfl (by simp)
      simp at h1
  · rintro ⟨e, he, hw⟩
    rcases Service.ReassignReviewer_trace_shape repo f rng prID oldUserID with
      hno | ⟨pr, oldUser, roster, writes, tail, hpr, hu, ht, htr, hwr, htail⟩
    · rw [hno e he] at hw
      cases hw
    · refine ⟨⟨pr, oldUser, roster, writes, tail, hpr, hu, ht, htr, hwr, htail⟩, ?_⟩
      intro h
      have h1 := h [] (Event.GetPR prID)
        ([Event.GetUser oldUserID, Event.GetTeamMembers oldUser.TeamName, Event.BeginTx] ++
          (writes ++ tail)) htr rfl (by simp)
      simp at h1

/-- Witness of the amended C11: on the store of TestHappyPath the trace of CreatePR is the
two reads, then BeginTx, then calls that are not reads; on openStore4 the trace of
ReassignReviewer is the three reads, then BeginTx, then the two writes and the Commit. -/
theorem C11_reads_precede_transaction_witness :
    (∃ rest,
      (Service.CreatePR gophers noFaults idRng 0 "pr-1" "Fix" "u1").trace =
        [Event.GetUser "u1", Event.GetTeamMembers "gophers", Event.BeginTx] ++ rest ∧
      ∀ e ∈ rest, e.isRead = false) ∧
    (∃ writes tail,
      (Service.ReassignReviewer openStore4 noFaults idRng "pr-1" "u2").trace =
        [Event.GetPR "pr-1", Event.GetUser "u2", Event.GetTeamMembers "gophers",
          Event.BeginTx] ++ (writes ++ tail) ∧
      (∀ e ∈ writes, e.isRead = false) ∧
      (tail = [] ∨ ∃ more, tail = Event.Commit :: more)) := by
  have h := C11_reads_precede_transaction gophers noFaults idRng 0 "pr-1" "Fix" "u1"
    "pr-1" "u2"
  have k := C11_reads_precede_transaction openStore4 noFaults idRng 0 "pr-1" "Fix" "u1"
    "pr-1" "u2"
  obtain ⟨⟨author, roster, rest, hu, _, htr, hrest⟩, _⟩ := h.1 ⟨Event.BeginTx, by decide, rfl⟩
  obtain ⟨⟨pr, oldUser, roster1, writes, tail, _, hu1, _, htr1, hwr, htail⟩, _⟩ :=
    k.2 ⟨Event.BeginTx, by decide, rfl⟩
  have ha : author = alice := by
    have : Storage.GetUser gophers noFaults.GetUser "u1" = .ok alice := by rfl
    rw [this] at hu
    cases hu
    rfl
  have hb : oldUser = bob := by
    have : Storage.GetUser openStore4 noFaults.GetUser "u2" = .ok bob := by rfl
    rw [this] at hu1
    cases hu1
    rfl
  subst ha
  subst hb
  exact ⟨⟨rest, htr, hrest⟩, ⟨writes, tail, htr1, hwr, htail⟩⟩

/-- C12 (code defect). On openStore4 (pr-1 with reviewers u2, u3; u4 free) ReassignReviewer
away from u2, in the run where only the GetPR that re-reads the pull request after Commit
fails, returns a non-nil error together with the replacement id u4, and the committed
reviewers of pr-1 have changed from u2, u3 to u3, u4. -/
theorem C12_error_after_commit :
    (Service.ReassignReviewer openStore4 rereadFails idRng "pr-1" "u2").ret =
      ⟨none, "u4", some (.driver 4)⟩ ∧
    (Service.ReassignReviewer openStore4 rereadFails idRng "pr-1" "u2").ret.err ≠ none ∧
    (Service.ReassignReviewer openStore4 rereadFails idRng "pr-1" "u2").ret.replacedBy ≠ "" ∧
    reviewerIDs openStore4 "pr-1" = ["u2", "u3"] ∧
    reviewerIDs (Service.ReassignReviewer openStore4 rereadFails idRng "pr-1" "u2").db "pr-1" =
      ["u3", "u4"] ∧
    Event.Commit ∈ (Service.ReassignReviewer openStore4 rereadFails idRng "pr-1" "u2").trace := by
  refine ⟨by rfl, by decide, by decide, by decide, by decide, by decide⟩

end PullreqAssigner
